import Mathlib

/-!
Verification development for the Daily Mood Tracker backend
(mood-entry persistence and validation engine).

The definitions below are shallow embeddings of the JavaScript source:
* `backend/src/models/MoodEntry.js` — the `MoodEntry` constructor, its
  `validate` method, `isValidDate`, `fromDbRow` and the static
  `validateInput` middleware check;
* `backend/src/database/database.js` — the `MoodDatabase` operations
  `createMoodEntry`, `getMoodEntryByDate`, `getMoodEntries`,
  `deleteMoodEntryByDate` and `getStatistics`;
* `backend/src/database/secure.js` — the sqlite schema for the
  `mood_entries` table (UNIQUE date, CHECK emoji, CHECK note length)
  and the `run`/`get`/`all` primitives, modelled as a pure row store.

JavaScript-runtime behaviour that the code relies on (UTF-16 string
length, UTF-16 lexicographic string comparison, `new Date(s)` parsing of
`YYYY-MM-DD` strings) is modelled explicitly below, following the
ECMAScript semantics; the process timezone is taken to be UTC (the
date-only form of `new Date` is specified to parse as UTC, so with a UTC
process timezone the local-time getters return the parsed components).
-/

namespace MoodTracker

/-! ### JavaScript string primitives -/

/-- The UTF-16 code units of a string (JavaScript strings are sequences
of UTF-16 code units; a code point ≥ `0x10000` is a surrogate pair). -/
def utf16Units (s : String) : List Nat :=
  s.data.flatMap fun c =>
    if c.toNat < 0x10000 then [c.toNat]
    else [0xD800 + (c.toNat - 0x10000) / 0x400, 0xDC00 + (c.toNat - 0x10000) % 0x400]

/-- JavaScript `s.length`: the number of UTF-16 code units of `s`. -/
def jsLength (s : String) : Nat :=
  (utf16Units s).length

/-- Lexicographic strict order on lists of naturals. -/
def lexLtNat : List Nat → List Nat → Bool
  | [], [] => false
  | [], _ :: _ => true
  | _ :: _, [] => false
  | a :: as, b :: bs => a < b || (a == b && lexLtNat as bs)

/-- JavaScript `a < b` on strings: lexicographic comparison of UTF-16
code-unit sequences. -/
def jsStrLt (a b : String) : Bool :=
  lexLtNat (utf16Units a) (utf16Units b)

/-- Lexicographic (weak) order on character lists by code point. -/
def charListLe : List Char → List Char → Bool
  | [], _ => true
  | _ :: _, [] => false
  | a :: as, b :: bs =>
    if a.toNat < b.toNat then true
    else if b.toNat < a.toNat then false
    else charListLe as bs

/-- SQLite comparison of TEXT values is a byte-wise comparison of their
UTF-8 encodings, which coincides with code-point lexicographic order.
`sqlLe a b` models SQL `a <= b`. -/
def sqlLe (a b : String) : Bool :=
  charListLe a.data b.data

/-- Strict version of `sqlLe` (SQL `a < b`). -/
def sqlLt (a b : String) : Bool :=
  !sqlLe b a

/-- Does `l` start with `p`? (helper for the substring test). -/
def startsWithChars : List Char → List Char → Bool
  | [], _ => true
  | _ :: _, [] => false
  | p :: ps, c :: cs => p == c && startsWithChars ps cs

/-- Is `p` a contiguous run of `l`? (helper for the substring test). -/
def hasSubChars (p : List Char) : List Char → Bool
  | [] => startsWithChars p []
  | c :: cs => startsWithChars p (c :: cs) || hasSubChars p cs

/-- JavaScript `s.includes(pat)`: substring containment. -/
def strContains (s pat : String) : Bool :=
  hasSubChars pat.data s.data

/-! ### Calendar dates and the JavaScript `Date` builtin -/

/-- Proleptic-Gregorian leap-year rule (the rule ECMAScript `Date` uses). -/
def isLeapYear (y : Nat) : Bool :=
  y % 4 == 0 && (y % 100 != 0 || y % 400 == 0)

/-- Number of days of month `m` (1–12) in year `y`. -/
def daysInMonth (y m : Nat) : Nat :=
  if m == 2 then (if isLeapYear y then 29 else 28)
  else if m == 4 || m == 6 || m == 9 || m == 11 then 30
  else 31

/-- The regular expression `/^\d{4}-\d{2}-\d{2}$/` from
`MoodEntry.isValidDate` (and `isValidDateString` in
`middleware/validation.js`). -/
def matchesDatePattern (s : String) : Bool :=
  match s.data with
  | [y1, y2, y3, y4, h1, m1, m2, h2, d1, d2] =>
    y1.isDigit && y2.isDigit && y3.isDigit && y4.isDigit &&
    h1 == '-' && m1.isDigit && m2.isDigit &&
    h2 == '-' && d1.isDigit && d2.isDigit
  | _ => false

/-- Numeric value of a list of decimal digits (JavaScript
`Number("0412") = 412`). -/
def digitsToNat (cs : List Char) : Nat :=
  cs.foldl (fun n c => 10 * n + (c.toNat - '0'.toNat)) 0

/-- The `[year, month, day]` produced by
`dateString.split('-').map(Number)` on a string matching the
`YYYY-MM-DD` pattern (and `(0,0,0)` on anything else; only used under
the pattern guard, mirroring the source). -/
def parseYMD (s : String) : Nat × Nat × Nat :=
  match s.data with
  | [y1, y2, y3, y4, _, m1, m2, _, d1, d2] =>
    (digitsToNat [y1, y2, y3, y4], digitsToNat [m1, m2], digitsToNat [d1, d2])
  | _ => (0, 0, 0)

/-- Modelled ECMAScript builtin: `new Date("YYYY-MM-DD")` followed by the
component getters. Per ECMA-262, a date-only ISO string is parsed as
UTC, and out-of-bounds components (month outside 1–12, or a day that
does not exist in that month, e.g. `2025-02-30`) make the string an
invalid instance of the Date Time String Format, yielding an Invalid
Date (all getters `NaN`, modelled as `none`). With a UTC process
timezone the local getters `getFullYear`/`getMonth`/`getDate` return
exactly the parsed components. -/
def jsDateYMD (y m d : Nat) : Option (Nat × Nat × Nat) :=
  if 1 ≤ m && m ≤ 12 && 1 ≤ d && d ≤ daysInMonth y m then some (y, m, d) else none

/-- `MoodEntry.isValidDate` (identical logic in `isValidDateString` of
`middleware/validation.js`): the strict pattern test followed by
round-tripping through a `Date` construction and comparing
year/month/day back out. -/
def isValidDate (s : String) : Bool :=
  if matchesDatePattern s then
    let (y, m, d) := parseYMD s
    match jsDateYMD y m d with
    | none => false
    | some (y', m', d') => y' == y && m' == m && d' == d
  else false

/-- Written from the spec's words, for comparison with `isValidDate`:
a string is accepted exactly when it matches the strict `YYYY-MM-DD`
pattern and denotes a real calendar date. -/
def isRealCalendarDate (s : String) : Bool :=
  matchesDatePattern s &&
    (let (y, m, d) := parseYMD s
     1 ≤ m && m ≤ 12 && 1 ≤ d && d ≤ daysInMonth y m)

/-! ### The `MoodEntry` entity and its validation -/

/-- `allowedEmojis` from `MoodEntry.validate` — the fixed closed set of
5 mood symbols (the same five literals appear in the schema's CHECK
constraint in `secure.js`). -/
def allowedEmojis : List String :=
  ["😢", "😐", "😊", "😄", "😍"]

/-- The constructor's note normalization:
`(note === '' || note === undefined) ? null : note` — `none` stands for
both JavaScript `null` and `undefined`. -/
def normNote : Option String → Option String
  | some s => if s = "" then none else some s
  | none => none

/-- The errors collected by the date block of `MoodEntry.validate`
(`!this.date` is the JavaScript falsiness test, i.e. empty string). -/
def dateErrs (date : String) : List String :=
  if date = "" then ["Date is required"]
  else if !isValidDate date then ["date must be in YYYY-MM-DD format"]
  else []

/-- The errors collected by the emoji block of `MoodEntry.validate`. -/
def emojiErrs (emoji : String) : List String :=
  if emoji = "" then ["Emoji is required"]
  else if !allowedEmojis.contains emoji then
    ["emoji must be one of: " ++ String.intercalate ", " allowedEmojis]
  else []

/-- The errors collected by the note block of `MoodEntry.validate`;
`note` is the already-normalized note (string values only — the
constructor path guarantees this), and the length is JavaScript's
UTF-16 length. -/
def noteErrs (note : Option String) : List String :=
  match note with
  | some n => if 500 < jsLength n then ["note must be 500 characters or less"] else []
  | none => []

/-- The full list of violations collected by `MoodEntry.validate`, in
source order (date, then emoji, then note). -/
def entryErrors (date emoji : String) (note : Option String) : List String :=
  dateErrs date ++ emojiErrs emoji ++ noteErrs note

/-- The errors surfaced by the repository and model layer.
* `validation m` — a thrown `ValidationError` with message `m`;
* `duplicateDate d` — the error with `code = 'DUPLICATE_DATE'`, message
  `Mood entry for ${d} already exists` and the remediation suggestion
  `Consider updating, editing, or deleting the existing entry first`;
* `notFound d` — `code = 'NOT_FOUND'`, message
  `Mood entry for ${d} not found`;
* `err m` — a plain `new Error(m)` (the pagination/range failures);
* `sqlite c m` — a propagated sqlite driver error with code `c` and
  message `m`. -/
inductive JsError where
  | validation (message : String)
  | duplicateDate (date : String)
  | notFound (date : String)
  | err (message : String)
  | sqlite (code : String) (message : String)
deriving DecidableEq, Repr

/-- The `MoodEntry` entity after construction: `note` is normalized,
`created_at`/`updated_at` are set. -/
structure MoodEntry where
  id : Option Nat
  date : String
  emoji : String
  note : Option String
  created_at : String
  updated_at : String
deriving DecidableEq, Repr

/-- JavaScript `x || now` on an optional timestamp string (falsy means
absent or empty). -/
def tsOr (x : Option String) (now : String) : String :=
  match x with
  | some s => if s = "" then now else s
  | none => now

/-- The `MoodEntry` constructor (`new MoodEntry({...})`): normalizes the
note, defaults the timestamps to `now` (`new Date().toISOString()`),
then runs `validate`, throwing a `ValidationError` joining all collected
messages with `'; '` when any rule is violated. -/
def mkMoodEntry (id : Option Nat) (date emoji : String) (note : Option String)
    (created_at updated_at : Option String) (now : String) : Except JsError MoodEntry :=
  let n := normNote note
  let errs := entryErrors date emoji n
  if errs.isEmpty then
    .ok ⟨id, date, emoji, n, tsOr created_at now, tsOr updated_at now⟩
  else
    .error (.validation (String.intercalate "; " errs))

/-! ### The encrypted row store (`secure.js` + schema) -/

/-- One row of the `mood_entries` table. -/
structure Row where
  id : Nat
  date : String
  emoji : String
  note : Option String
  created_at : String
  updated_at : String
deriving DecidableEq, Repr

/-- The `mood_entries` table: rows in insertion order plus the next
AUTOINCREMENT id. -/
structure Store where
  rows : List Row
  nextId : Nat
deriving DecidableEq, Repr

/-- A freshly initialized store (sqlite assigns rowids from 1). -/
def emptyStore : Store :=
  ⟨[], 1⟩

/-- An error surfaced by the sqlite driver (`err.code`, `err.message`). -/
structure SqliteError where
  code : String
  message : String
deriving DecidableEq, Repr

/-- SQLite `length(note) <= 500` CHECK (NULL passes; sqlite `length` on
TEXT counts characters, i.e. code points). -/
def noteCheckOk : Option String → Bool
  | some n => n.length ≤ 500
  | none => true

/-- `db.get('SELECT * FROM mood_entries WHERE date = ?')`: the first
row with the given date, if any. -/
def dbGet (st : Store) (date : String) : Option Row :=
  st.rows.find? fun r => r.date == date

/-- `db.run('INSERT INTO mood_entries (date, emoji, note, created_at,
updated_at) VALUES (?, ?, ?, ?, ?)')` against the schema of
`secure.js`: CHECK constraints on emoji and note, then the UNIQUE
constraint on `date`; on success the row is appended with the next
AUTOINCREMENT id and `{ id: lastID }` is returned with the new store. -/
def dbInsert (st : Store) (date emoji : String) (note : Option String)
    (created_at updated_at : String) : Except SqliteError (Nat × Store) :=
  if !allowedEmojis.contains emoji then
    .error ⟨"SQLITE_CONSTRAINT", "CHECK constraint failed: mood_entries"⟩
  else if !noteCheckOk note then
    .error ⟨"SQLITE_CONSTRAINT", "CHECK constraint failed: mood_entries"⟩
  else if st.rows.any fun r => r.date == date then
    .error ⟨"SQLITE_CONSTRAINT", "UNIQUE constraint failed: mood_entries.date"⟩
  else
    .ok (st.nextId, ⟨st.rows ++ [⟨st.nextId, date, emoji, note, created_at, updated_at⟩], st.nextId + 1⟩)

/-- `db.run('DELETE FROM mood_entries WHERE date = ?')`: removes every
row with the date and reports the number of removed rows as
`changes`. -/
def dbDelete (st : Store) (date : String) : Nat × Store :=
  ((st.rows.filter fun r => r.date == date).length,
   ⟨st.rows.filter fun r => !(r.date == date), st.nextId⟩)

/-! ### The mood repository (`database.js`) -/

/-- `MoodEntry.fromDbRow(row)`: re-runs the constructor on the row's
fields (so the row's note is re-normalized and the row is re-validated;
`now` is only consulted when a stored timestamp is falsy). -/
def fromDbRow (r : Row) (now : String) : Except JsError MoodEntry :=
  mkMoodEntry (some r.id) r.date r.emoji r.note (some r.created_at) (some r.updated_at) now

/-- The entry `fromDbRow` yields on a well-formed row (stated for use in
the theorems below). -/
def entryOfRow (r : Row) : MoodEntry :=
  ⟨some r.id, r.date, r.emoji, normNote r.note, r.created_at, r.updated_at⟩

/-- `MoodDatabase.getMoodEntryByDate(date)`: exact lookup; `ok none`
signals absence (a normal outcome, not an error). -/
def getMoodEntryByDate (st : Store) (date : String) (now : String) :
    Except JsError (Option MoodEntry) :=
  match dbGet st date with
  | none => .ok none
  | some r =>
    match fromDbRow r now with
    | .ok e => .ok (some e)
    | .error e => .error e

/-- The `catch (sqliteError)` block of `createMoodEntry`: a
`SQLITE_CONSTRAINT` failure whose message mentions `mood_entries.date`
is remapped to the duplicate-date error; any other sqlite error is
re-thrown. -/
def remapSqliteError (date : String) (e : SqliteError) : JsError :=
  if e.code == "SQLITE_CONSTRAINT" && strContains e.message "mood_entries.date" then
    .duplicateDate date
  else
    .sqlite e.code e.message

/-- The request body of a create call: `{date, emoji, note?}`. -/
structure MoodInput where
  date : String
  emoji : String
  note : Option String
deriving DecidableEq, Repr

/-- `MoodDatabase.createMoodEntry(moodData)`. The pair's second
component is the store after the call (unchanged on every failure —
the constructor and the existence pre-check precede any mutation, and a
failed INSERT statement is atomic in sqlite). -/
def createMoodEntry (st : Store) (inp : MoodInput) (now : String) :
    Except JsError MoodEntry × Store :=
  match mkMoodEntry none inp.date inp.emoji inp.note none none now with
  | .error e => (.error e, st)
  | .ok entry =>
    match getMoodEntryByDate st entry.date now with
    | .error e => (.error e, st)
    | .ok (some _) => (.error (.duplicateDate entry.date), st)
    | .ok none =>
      match dbInsert st entry.date entry.emoji entry.note entry.created_at entry.updated_at with
      | .error e => (.error (remapSqliteError entry.date e), st)
      | .ok (id, st') => (.ok { entry with id := some id }, st')

/-- `MoodDatabase.deleteMoodEntryByDate(date)`: look the entry up first
(to return the pre-deletion snapshot), fail with the not-found error if
absent, otherwise run the DELETE (re-checking `changes === 0`) and
return the snapshot. -/
def deleteMoodEntryByDate (st : Store) (date : String) (now : String) :
    Except JsError MoodEntry × Store :=
  match getMoodEntryByDate st date now with
  | .error e => (.error e, st)
  | .ok none => (.error (.notFound date), st)
  | .ok (some existing) =>
    let (changes, st') := dbDelete st date
    if changes == 0 then (.error (.notFound date), st')
    else (.ok existing, st')

/-! ### Listing with filtering and pagination -/

/-- The options of `getMoodEntries` with their source defaults. `none`
stands for the `null` defaults of `from`/`to` (`dateFrom`/`dateTo`
here, since `from` is reserved in Lean). -/
structure ListOptions where
  limit : Int := 20
  page : Int := 1
  dateFrom : Option String := none
  dateTo : Option String := none
deriving DecidableEq, Repr

/-- JavaScript truthiness of the nullable string options (`null`,
`undefined` and `''` are falsy). -/
def optTruthy : Option String → Bool
  | none => false
  | some s => !(s == "")

/-- The string value of an option (only consulted when truthy). -/
def optStr : Option String → String
  | none => ""
  | some s => s

/-- The WHERE clause built by `getMoodEntries`:
`date BETWEEN ? AND ?` / `date >= ?` / `date <= ?` / no filter,
with sqlite's TEXT comparison. -/
def rowMatches (opts : ListOptions) (r : Row) : Bool :=
  if optTruthy opts.dateFrom && optTruthy opts.dateTo then
    sqlLe (optStr opts.dateFrom) r.date && sqlLe r.date (optStr opts.dateTo)
  else if optTruthy opts.dateFrom then
    sqlLe (optStr opts.dateFrom) r.date
  else if optTruthy opts.dateTo then
    sqlLe r.date (optStr opts.dateTo)
  else
    true

/-- Written from the spec's words, for comparison with `rowMatches`:
the inclusive date-range filter, one-sided when only one bound is
given. -/
def inDateRange (dateFrom dateTo : Option String) (d : String) : Bool :=
  (match dateFrom with | some a => sqlLe a d | none => true) &&
  (match dateTo with | some b => sqlLe d b | none => true)

theorem charListLe_total : ∀ a b, charListLe a b = true ∨ charListLe b a = true
  | [], _ => Or.inl rfl
  | _ :: _, [] => Or.inr rfl
  | a :: as, b :: bs => by
    unfold charListLe
    rcases Nat.lt_trichotomy a.toNat b.toNat with h | h | h
    · left
      rw [if_pos h]
    · rw [if_neg (by omega), if_neg (by omega), if_neg (by omega), if_neg (by omega)]
      exact charListLe_total as bs
    · right
      rw [if_pos h]

theorem charListLe_trans : ∀ a b c, charListLe a b = true → charListLe b c = true →
    charListLe a c = true
  | [], _, _ => by intro _ _; rfl
  | a :: as, [], _ => by intro h _; exact absurd h (by simp [charListLe])
  | a :: as, b :: bs, [] => by intro _ h; exact absurd h (by simp [charListLe])
  | a :: as, b :: bs, c :: cs => by
    intro h1 h2
    unfold charListLe at h1 h2 ⊢
    by_cases hab : a.toNat < b.toNat
    · by_cases hbc : b.toNat < c.toNat
      · rw [if_pos (by omega)]
      · by_cases hcb : c.toNat < b.toNat
        · rw [if_neg hbc, if_pos hcb] at h2
          exact absurd h2 (by simp)
        · rw [if_pos (by omega)]
    · by_cases hba : b.toNat < a.toNat
      · rw [if_neg hab, if_pos hba] at h1
        exact absurd h1 (by simp)
      · by_cases hbc : b.toNat < c.toNat
        · rw [if_pos (by omega)]
        · by_cases hcb : c.toNat < b.toNat
          · rw [if_neg hbc, if_pos hcb] at h2
            exact absurd h2 (by simp)
          · rw [if_neg (by omega), if_neg (by omega)]
            rw [if_neg hab, if_neg hba] at h1
            rw [if_neg hbc, if_neg hcb] at h2
            exact charListLe_trans as bs cs h1 h2

theorem sqlLe_total (a b : String) : sqlLe a b = true ∨ sqlLe b a = true :=
  charListLe_total a.data b.data

theorem sqlLe_trans (a b c : String) (h1 : sqlLe a b = true) (h2 : sqlLe b c = true) :
    sqlLe a c = true :=
  charListLe_trans a.data b.data c.data h1 h2

/-- `ORDER BY date DESC` as a relation on rows. -/
def rowDescRel : Row → Row → Prop :=
  fun a b => sqlLe b.date a.date = true

instance : DecidableRel rowDescRel :=
  fun a b => inferInstanceAs (Decidable (sqlLe b.date a.date = true))

instance : IsTotal Row rowDescRel :=
  ⟨fun a b => sqlLe_total b.date a.date⟩

instance : IsTrans Row rowDescRel :=
  ⟨fun _ _ _ h₁ h₂ => sqlLe_trans _ _ _ h₂ h₁⟩

/-- `SELECT * FROM mood_entries ... ORDER BY date DESC`. -/
def sortRowsDesc (l : List Row) : List Row :=
  l.insertionSort rowDescRel

/-- The result shape of `getMoodEntries`. -/
structure ListResult where
  moods : List MoodEntry
  total : Nat
  page : Int
  limit : Int
  totalPages : Nat
deriving DecidableEq, Repr

/-- `MoodDatabase.getMoodEntries(options)`: parameter validation (hard
failures, no clamping), the COUNT query over the filter, then the page
query `ORDER BY date DESC LIMIT ? OFFSET ?` with
`offset = (page - 1) * limit`, each row mapped through
`MoodEntry.fromDbRow`; `totalPages = Math.ceil(total / limit)`. -/
def getMoodEntries (st : Store) (opts : ListOptions) (now : String) :
    Except JsError ListResult :=
  if opts.limit < 1 ∨ 100 < opts.limit then
    .error (.err "Limit must be between 1 and 100")
  else if opts.page < 1 then
    .error (.err "Page must be 1 or greater")
  else if optTruthy opts.dateFrom && optTruthy opts.dateTo &&
      jsStrLt (optStr opts.dateTo) (optStr opts.dateFrom) then
    .error (.err "From date cannot be after to date")
  else
    let matching := st.rows.filter (rowMatches opts)
    let total := matching.length
    let off := ((opts.page - 1) * opts.limit).toNat
    let lim := opts.limit.toNat
    let pageRows := ((sortRowsDesc matching).drop off).take lim
    match pageRows.mapM (fun r => fromDbRow r now) with
    | .error e => .error e
    | .ok moods => .ok ⟨moods, total, opts.page, opts.limit, (total + lim - 1) / lim⟩

/-! ### Statistics (`getStatistics`) -/

/-- A calendar date, used to model the JavaScript `Date` value
`new Date()` denotes at the time of the call (process timezone UTC, so
`getDate`/`setDate`/`toISOString` all see the same calendar day). -/
structure JsDate where
  year : Nat
  month : Nat
  day : Nat
deriving DecidableEq, Repr

/-- The previous calendar day (proleptic Gregorian, as ECMAScript's
day-number arithmetic computes it). -/
def prevDay : JsDate → JsDate
  | ⟨y, m, d⟩ =>
    if 1 < d then ⟨y, m, d - 1⟩
    else if 1 < m then ⟨y, m - 1, daysInMonth y (m - 1)⟩
    else ⟨y - 1, 12, 31⟩

/-- `cutoffDate.setDate(cutoffDate.getDate() - days)`: going back `days`
calendar days. -/
def subDays (d : JsDate) : Nat → JsDate
  | 0 => d
  | n + 1 => prevDay (subDays d n)

/-- Left-pad a numeral to two digits. -/
def pad2 (n : Nat) : String :=
  if n < 10 then "0" ++ toString n else toString n

/-- Left-pad a numeral to four digits. -/
def pad4 (n : Nat) : String :=
  if n < 10 then "000" ++ toString n
  else if n < 100 then "00" ++ toString n
  else if n < 1000 then "0" ++ toString n
  else toString n

/-- `date.toISOString().split('T')[0]`: the `YYYY-MM-DD` rendering of a
calendar date. -/
def isoOfDate (d : JsDate) : String :=
  pad4 d.year ++ "-" ++ pad2 d.month ++ "-" ++ pad2 d.day

/-- SQLite `DATE(created_at)` on an ISO-8601 timestamp (as produced by
`toISOString()`): its date part, everything before the `T`. -/
def dayOf (ts : String) : String :=
  ⟨ts.data.takeWhile fun c => !(c == 'T')⟩

/-- One row of the GROUP BY result:
`SELECT emoji, COUNT(*) as count, DATE(created_at) as date`. -/
structure StatGroup where
  emoji : String
  count : Nat
  date : String
deriving DecidableEq, Repr

/-- `ORDER BY date DESC` on the grouped rows (`date` being the aliased
`DATE(created_at)`). -/
def grpDescRel : StatGroup → StatGroup → Prop :=
  fun a b => sqlLe b.date a.date = true

instance : DecidableRel grpDescRel :=
  fun a b => inferInstanceAs (Decidable (sqlLe b.date a.date = true))

instance : IsTotal StatGroup grpDescRel :=
  ⟨fun a b => sqlLe_total b.date a.date⟩

instance : IsTrans StatGroup grpDescRel :=
  ⟨fun _ _ _ h₁ h₂ => sqlLe_trans _ _ _ h₂ h₁⟩

/-- The grouped aggregation query of `getStatistics`: rows with
`date >= cutoff`, grouped by `(emoji, DATE(created_at))` with a
COUNT(*) per group, ordered by group date descending. -/
def statRows (st : Store) (cutoff : String) : List StatGroup :=
  let filtered := st.rows.filter fun r => sqlLe cutoff r.date
  let keys := (filtered.map fun r => (r.emoji, dayOf r.created_at)).dedup
  let groups := keys.map fun k =>
    StatGroup.mk k.1
      (filtered.filter fun r => r.emoji == k.1 && dayOf r.created_at == k.2).length
      k.2
  groups.insertionSort grpDescRel

/-- The result shape of `getStatistics`; `distribution` models the
plain-object emoji → count map (absent key = 0). -/
structure StatsResult where
  totalEntries : Nat
  distribution : String → Nat
  dailyBreakdown : List StatGroup
  period : Nat

/-- `MoodDatabase.getStatistics({days})`: cutoff = today − days
(rendered `YYYY-MM-DD`), the grouped query, then the forEach loop
accumulating the per-emoji distribution and the total count. -/
def getStatistics (st : Store) (today : JsDate) (days : Nat) : StatsResult :=
  let cutoffDateStr := isoOfDate (subDays today days)
  let stats := statRows st cutoffDateStr
  let distribution :=
    stats.foldl (fun f g => fun e => if e == g.emoji then f e + g.count else f e) fun _ => 0
  let totalEntries := stats.foldl (fun n g => n + g.count) 0
  ⟨totalEntries, distribution, stats, days⟩

/-! ### The coarse boundary check (`MoodEntry.validateInput`) -/

/-- A JavaScript value as it can appear in a parsed JSON request body
field. -/
inductive JsVal where
  | str (s : String)
  | num (n : Int)
  | boolean (b : Bool)
  | null
deriving DecidableEq, Repr

/-- The body fields `validateInput` inspects; `none` is an absent
(`undefined`) field. -/
structure RawInput where
  date : Option JsVal := none
  emoji : Option JsVal := none
  note : Option JsVal := none
deriving DecidableEq, Repr

/-- JavaScript truthiness of an optional body field. -/
def jsTruthy : Option JsVal → Bool
  | none => false
  | some (.str s) => !(s == "")
  | some (.num n) => !(n == 0)
  | some (.boolean b) => b
  | some .null => false

/-- `typeof v === 'string'`. -/
def isStrVal : JsVal → Bool
  | .str _ => true
  | _ => false

/-- The required-field and type errors collected by `validateInput`
before any entity is constructed, in source order. -/
def typeErrors (data : RawInput) : List String :=
  (if !jsTruthy data.date then ["Date is required"] else []) ++
  (if !jsTruthy data.emoji then ["Emoji is required"] else []) ++
  (if jsTruthy data.date && !(match data.date with | some v => isStrVal v | none => false) then
    ["date must be a string"] else []) ++
  (if jsTruthy data.emoji && !(match data.emoji with | some v => isStrVal v | none => false) then
    ["Emoji must be a string"] else []) ++
  (match data.note with
   | some .null => []
   | some v => if !isStrVal v then ["note must be a string"] else []
   | none => [])

/-- The string content of a field that passed the truthy + string
checks. -/
def strVal : Option JsVal → String
  | some (.str s) => s
  | _ => ""

/-- The note argument handed to the trial construction (`undefined` and
`null` both reach the constructor as nullish). -/
def noteVal : Option JsVal → Option String
  | some (.str s) => some s
  | _ => none

/-- The structured result `{isValid, errors}` of `validateInput`. -/
structure ValidationResult where
  isValid : Bool
  errors : List String
deriving DecidableEq, Repr

/-- `MoodEntry.validateInput(data)`: required/type checks first; if they
pass, a temporary `MoodEntry` is constructed and a thrown
`ValidationError`'s (joined) message is returned as the single error.
Construction does not read the clock for validation purposes, so the
`now` used by the trial construction is irrelevant; it is fixed to
`""`. -/
def validateInput (data : RawInput) : ValidationResult :=
  let errs := typeErrors data
  if !errs.isEmpty then
    ⟨false, errs⟩
  else
    match mkMoodEntry none (strVal data.date) (strVal data.emoji) (noteVal data.note) none none "" with
    | .ok _ => ⟨true, []⟩
    | .error (.validation m) => ⟨false, [m]⟩
    | .error _ => ⟨false, []⟩

/-! ### Store well-formedness and basic lemmas -/

instance {ε α : Type} [DecidableEq ε] [DecidableEq α] : DecidableEq (Except ε α) := fun x y =>
  match x, y with
  | .ok a, .ok b => if h : a = b then .isTrue (by rw [h]) else .isFalse (by simp [h])
  | .ok _, .error _ => .isFalse (by simp)
  | .error _, .ok _ => .isFalse (by simp)
  | .error a, .error b => if h : a = b then .isTrue (by rw [h]) else .isFalse (by simp [h])

/-- A stored row is well formed when re-validating it succeeds and its
timestamps are non-empty (every row written by `createMoodEntry`
satisfies this). -/
def rowOk (r : Row) : Bool :=
  (entryErrors r.date r.emoji (normNote r.note)).isEmpty &&
    !(r.created_at == "") && !(r.updated_at == "")

/-- Number of rows holding a given date. -/
def countDate (st : Store) (d : String) : Nat :=
  st.rows.countP fun r => r.date == d

/-- Store invariant: dates are pairwise distinct (the UNIQUE constraint)
and every row is well formed. -/
def storeWF (st : Store) : Prop :=
  (st.rows.map fun r => r.date).Nodup ∧ ∀ r ∈ st.rows, rowOk r = true

instance (st : Store) : Decidable (storeWF st) := by
  unfold storeWF
  infer_instance

/-- The entry the constructor yields on valid input with fresh
timestamps. -/
def newEntry (inp : MoodInput) (now : String) : MoodEntry :=
  ⟨none, inp.date, inp.emoji, normNote inp.note, now, now⟩

/-- The row `createMoodEntry` inserts on success. -/
def newRow (st : Store) (inp : MoodInput) (now : String) : Row :=
  ⟨st.nextId, inp.date, inp.emoji, normNote inp.note, now, now⟩

/-- The cutoff string `statistics` computes:
`today − days` rendered `YYYY-MM-DD`. -/
def cutoffOf (today : JsDate) (days : Nat) : String :=
  isoOfDate (subDays today days)

/-- The rows the statistics query ranges over: `WHERE date >= cutoff`. -/
def windowRows (st : Store) (cutoff : String) : List Row :=
  st.rows.filter fun r => sqlLe cutoff r.date

/-- The GROUP BY key of a row: `(emoji, DATE(created_at))`. -/
def rowKey (r : Row) : String × String :=
  (r.emoji, dayOf r.created_at)

/-- COUNT(*) of one group. -/
def groupCount (filtered : List Row) (k : String × String) : Nat :=
  (filtered.filter fun r => r.emoji == k.1 && dayOf r.created_at == k.2).length

/-- One output row of the GROUP BY. -/
def mkGroup (filtered : List Row) (k : String × String) : StatGroup :=
  ⟨k.1, groupCount filtered k, k.2⟩



theorem charListLe_antisymm : ∀ a b, charListLe a b = true → charListLe b a = true →
    a = b
  | [], [] => by intro _ _; rfl
  | [], _ :: _ => by intro _ h; exact absurd h (by simp [charListLe])
  | _ :: _, [] => by intro h _; exact absurd h (by simp [charListLe])
  | a :: as, b :: bs => by
    intro h1 h2
    unfold charListLe at h1 h2
    rcases Nat.lt_trichotomy a.toNat b.toNat with hab | hab | hab
    · rw [if_neg (by omega), if_pos (by omega)] at h2
      exact absurd h2 (by simp)
    · rw [if_neg (by omega), if_neg (by omega)] at h1 h2
      have hc : a = b := by
        unfold Char.toNat at hab
        exact Char.eq_of_val_eq (UInt32.toNat.inj hab)
      rw [hc, charListLe_antisymm as bs h1 h2]
    · rw [if_neg (by omega), if_pos (by omega)] at h1
      exact absurd h1 (by simp)

theorem string_eq_of_data_eq (a b : String) (h : a.data = b.data) : a = b := by
  cases a
  cases b
  exact congrArg String.mk h



theorem sqlLe_antisymm (a b : String) (h1 : sqlLe a b = true) (h2 : sqlLe b a = true) :
    a = b :=
  string_eq_of_data_eq a b (charListLe_antisymm a.data b.data h1 h2)

theorem sqlLt_of_le_of_ne (a b : String) (hle : sqlLe a b = true) (hne : a ≠ b) :
    sqlLt a b = true := by
  unfold sqlLt
  cases h : sqlLe b a
  · rfl
  · exact absurd (sqlLe_antisymm a b hle h) hne

theorem normNote_idem (n : Option String) : normNote (normNote n) = normNote n := by
  cases n with
  | none => rfl
  | some s =>
    by_cases h : s = "" <;> simp [normNote, h]

theorem normNote_ne_some_empty (n : Option String) : normNote n ≠ some "" := by
  cases n with
  | none => simp [normNote]
  | some s => by_cases h : s = "" <;> simp [normNote, h]

theorem length_le_units_length (l : List Char) :
    l.length ≤ (l.flatMap fun c =>
      if c.toNat < 0x10000 then [c.toNat]
      else [0xD800 + (c.toNat - 0x10000) / 0x400, 0xDC00 + (c.toNat - 0x10000) % 0x400]).length := by
  induction l with
  | nil => simp
  | cons c cs ih =>
    rw [List.flatMap_cons, List.length_append, List.length_cons]
    have h1 : (1 : Nat) ≤ (if c.toNat < 0x10000 then [c.toNat]
        else [0xD800 + (c.toNat - 0x10000) / 0x400, 0xDC00 + (c.toNat - 0x10000) % 0x400]).length := by
      split <;> simp
    omega

/-- A string's code-point count is at most its UTF-16 length, so the
application-level 500-character check subsumes the store's CHECK. -/
theorem length_le_jsLength (s : String) : s.length ≤ jsLength s := by
  unfold jsLength utf16Units
  exact length_le_units_length s.data

theorem entryErrors_eq_nil (date emoji : String) (note : Option String) :
    entryErrors date emoji note = [] ↔
      dateErrs date = [] ∧ emojiErrs emoji = [] ∧ noteErrs note = [] := by
  simp [entryErrors]

theorem emojiErrs_eq_nil (emoji : String) :
    emojiErrs emoji = [] ↔ emoji ≠ "" ∧ allowedEmojis.contains emoji = true := by
  unfold emojiErrs
  split
  · rename_i h; simp [h]
  · rename_i h
    split
    · rename_i h2; simp_all
    · rename_i h2; simp_all

theorem noteErrs_eq_nil (note : Option String) :
    noteErrs note = [] ↔ (∀ n, note = some n → jsLength n ≤ 500) := by
  cases note with
  | none => simp [noteErrs]
  | some n =>
    unfold noteErrs
    split <;> rename_i h <;> simp_all

theorem fromDbRow_eq_ok (r : Row) (now : String) (h : rowOk r = true) :
    fromDbRow r now = .ok (entryOfRow r) := by
  simp only [rowOk, Bool.and_eq_true, Bool.not_eq_true', beq_eq_false_iff_ne,
    List.isEmpty_iff] at h
  obtain ⟨⟨he, hc⟩, hu⟩ := h
  simp [fromDbRow, mkMoodEntry, entryOfRow, tsOr, he, hc, hu]

theorem dbGet_eq_none_iff (st : Store) (d : String) :
    dbGet st d = none ↔ ∀ r ∈ st.rows, r.date ≠ d := by
  simp [dbGet, List.find?_eq_none]

theorem dbGet_mem (st : Store) (d : String) (r : Row) (h : dbGet st d = some r) :
    r ∈ st.rows ∧ r.date = d := by
  have h1 := List.mem_of_find?_eq_some h
  have h2 := List.find?_some h
  exact ⟨h1, by simpa using h2⟩

theorem getMoodEntryByDate_of_wf_none (st : Store) (d now : String)
    (h : dbGet st d = none) :
    getMoodEntryByDate st d now = .ok none := by
  simp [getMoodEntryByDate, h]

theorem getMoodEntryByDate_of_wf_some (st : Store) (d now : String) (r : Row)
    (hWF : storeWF st) (h : dbGet st d = some r) :
    getMoodEntryByDate st d now = .ok (some (entryOfRow r)) := by
  have hr := (dbGet_mem st d r h).1
  simp [getMoodEntryByDate, h, fromDbRow_eq_ok r now (hWF.2 r hr)]

theorem mapM_fromDbRow_ok (now : String) (l : List Row) (h : ∀ r ∈ l, rowOk r = true) :
    l.mapM (fun r => fromDbRow r now) = .ok (l.map entryOfRow) := by
  induction l with
  | nil => rfl
  | cons r rs ih =>
    rw [List.mapM_cons, fromDbRow_eq_ok r now (h r (by simp))]
    rw [ih fun x hx => h x (by simp [hx])]
    rfl

theorem countDate_eq_count_map (st : Store) (d : String) :
    countDate st d = (st.rows.map fun r => r.date).count d := by
  rw [countDate, List.count, List.countP_map]
  rfl

theorem countDate_le_one_of_wf (st : Store) (hWF : storeWF st) (d : String) :
    countDate st d ≤ 1 := by
  rw [countDate_eq_count_map]
  exact List.nodup_iff_count_le_one.mp hWF.1 d

theorem countDate_pos_iff (st : Store) (d : String) :
    1 ≤ countDate st d ↔ ∃ r ∈ st.rows, r.date = d := by
  rw [countDate, Nat.one_le_iff_ne_zero, Ne, List.countP_eq_zero]
  push_neg
  simp

theorem mkMoodEntry_fresh_valid (inp : MoodInput) (now : String)
    (hv : entryErrors inp.date inp.emoji (normNote inp.note) = []) :
    mkMoodEntry none inp.date inp.emoji inp.note none none now = .ok (newEntry inp now) := by
  simp [mkMoodEntry, hv, newEntry, tsOr]

theorem mkMoodEntry_fresh_invalid (inp : MoodInput) (now : String)
    (hv : entryErrors inp.date inp.emoji (normNote inp.note) ≠ []) :
    mkMoodEntry none inp.date inp.emoji inp.note none none now =
      .error (.validation (String.intercalate "; "
        (entryErrors inp.date inp.emoji (normNote inp.note)))) := by
  simp [mkMoodEntry, List.isEmpty_iff, hv]

/-- Invalid input: `createMoodEntry` fails with the joined
`ValidationError` and touches nothing, whatever the store holds. -/
theorem createMoodEntry_invalid (st : Store) (inp : MoodInput) (now : String)
    (hv : entryErrors inp.date inp.emoji (normNote inp.note) ≠ []) :
    createMoodEntry st inp now =
      (.error (.validation (String.intercalate "; "
        (entryErrors inp.date inp.emoji (normNote inp.note)))), st) := by
  unfold createMoodEntry
  rw [mkMoodEntry_fresh_invalid inp now hv]

/-- Valid input on an occupied date: the existence pre-check fires. -/
theorem createMoodEntry_dup (st : Store) (inp : MoodInput) (now : String)
    (hWF : storeWF st)
    (hv : entryErrors inp.date inp.emoji (normNote inp.note) = [])
    (r : Row) (hr : dbGet st inp.date = some r) :
    createMoodEntry st inp now = (.error (.duplicateDate inp.date), st) := by
  have hmk := mkMoodEntry_fresh_valid inp now hv
  have hget := getMoodEntryByDate_of_wf_some st inp.date now r hWF hr
  simp only [createMoodEntry, hmk, newEntry, hget]

theorem noteCheckOk_of_noteErrs_nil (note : Option String) (h : noteErrs note = []) :
    noteCheckOk note = true := by
  cases note with
  | none => rfl
  | some n =>
    have := (noteErrs_eq_nil (some n)).mp h n rfl
    have := length_le_jsLength n
    simp only [noteCheckOk, decide_eq_true_eq]
    omega

/-- Valid input on a free date: the INSERT succeeds, appending the row
and assigning the next id. -/
theorem createMoodEntry_free (st : Store) (inp : MoodInput) (now : String)
    (hv : entryErrors inp.date inp.emoji (normNote inp.note) = [])
    (hfree : dbGet st inp.date = none) :
    createMoodEntry st inp now =
      (.ok { newEntry inp now with id := some st.nextId },
       ⟨st.rows ++ [newRow st inp now], st.nextId + 1⟩) := by
  have hmk := mkMoodEntry_fresh_valid inp now hv
  have hget := getMoodEntryByDate_of_wf_none st inp.date now hfree
  obtain ⟨-, hemo, hnote⟩ := (entryErrors_eq_nil ..).mp hv
  have hcontains := ((emojiErrs_eq_nil inp.emoji).mp hemo).2
  have hcheck := noteCheckOk_of_noteErrs_nil _ hnote
  have hany : (st.rows.any fun r => r.date == inp.date) = false := by
    rw [List.any_eq_false]
    intro r hr
    simpa using (dbGet_eq_none_iff st inp.date).mp hfree r hr
  simp only [createMoodEntry, hmk, newEntry, hget, dbInsert, hcontains, hcheck, hany,
    Bool.not_true, Bool.not_false, if_false, if_true, Bool.false_eq_true, ite_false, newRow]

/-- Creation preserves the store invariant. -/
theorem storeWF_after_create (st : Store) (inp : MoodInput) (now : String)
    (hWF : storeWF st) (hnow : now ≠ "")
    (hv : entryErrors inp.date inp.emoji (normNote inp.note) = [])
    (hfree : dbGet st inp.date = none) :
    storeWF ⟨st.rows ++ [newRow st inp now], st.nextId + 1⟩ := by
  constructor
  · rw [List.map_append, List.nodup_append]
    refine ⟨hWF.1, by simp, ?_⟩
    intro d hd hd'
    simp only [newRow, List.map_cons, List.map_nil, List.mem_singleton] at hd'
    subst hd'
    obtain ⟨r, hr, hrd⟩ := List.mem_map.mp hd
    exact (dbGet_eq_none_iff st inp.date).mp hfree r hr hrd
  · intro r hr
    rcases List.mem_append.mp hr with h | h
    · exact hWF.2 r h
    · simp only [List.mem_singleton] at h
      subst h
      simp only [rowOk, newRow, Bool.and_eq_true, Bool.not_eq_true', beq_eq_false_iff_ne]
      refine ⟨⟨?_, hnow⟩, hnow⟩
      rw [List.isEmpty_iff]
      simpa [entryErrors, normNote_idem] using hv

theorem intercalate_singleton (s : String) : String.intercalate "; " [s] = s := by
  simp [String.intercalate, String.intercalate.go]

theorem normNote_of_ne_empty (n : Option String) (h : n ≠ some "") : normNote n = n := by
  cases n with
  | none => rfl
  | some s =>
    have : s ≠ "" := by intro hs; exact h (by rw [hs])
    simp [normNote, this]

/-- Inversion: a successful create implies valid input, a previously
free date, and the appended-row result shape. -/
theorem createMoodEntry_ok_inv (st : Store) (inp : MoodInput) (now : String)
    (e : MoodEntry) (st' : Store)
    (hok : createMoodEntry st inp now = (.ok e, st')) :
    entryErrors inp.date inp.emoji (normNote inp.note) = [] ∧
    dbGet st inp.date = none ∧
    e = { newEntry inp now with id := some st.nextId } ∧
    st' = ⟨st.rows ++ [newRow st inp now], st.nextId + 1⟩ := by
  by_cases hv : entryErrors inp.date inp.emoji (normNote inp.note) = []
  · refine ⟨hv, ?_⟩
    unfold createMoodEntry at hok
    rw [mkMoodEntry_fresh_valid inp now hv] at hok
    by_cases hfree : dbGet st inp.date = none
    · have := createMoodEntry_free st inp now hv hfree
      unfold createMoodEntry at this
      rw [mkMoodEntry_fresh_valid inp now hv] at this
      rw [this] at hok
      obtain ⟨h1, h2⟩ := Prod.mk.injEq .. ▸ hok
      exact ⟨hfree, (Except.ok.injEq .. ▸ h1).symm, h2.symm⟩
    · exfalso
      obtain ⟨r, hr⟩ := Option.ne_none_iff_exists'.mp hfree
      simp only [newEntry, getMoodEntryByDate, hr] at hok
      cases hfr : fromDbRow r now with
      | ok e' => rw [hfr] at hok; simp at hok
      | error e' => rw [hfr] at hok; simp at hok
  · exfalso
    rw [createMoodEntry_invalid st inp now hv] at hok
    simp at hok

/-- Deleting a present date removes exactly its rows and returns the
pre-deletion snapshot. -/
theorem deleteMoodEntryByDate_present (st : Store) (d now : String)
    (hWF : storeWF st) (r : Row) (hr : dbGet st d = some r) :
    deleteMoodEntryByDate st d now =
      (.ok (entryOfRow r), ⟨st.rows.filter fun x => !(x.date == d), st.nextId⟩) := by
  obtain ⟨hmem, hdate⟩ := dbGet_mem st d r hr
  have hinfilter : r ∈ st.rows.filter fun x => x.date == d :=
    List.mem_filter.mpr ⟨hmem, by simp [hdate]⟩
  have hlen : ((st.rows.filter fun x => x.date == d).length == 0) = false := by
    rw [beq_eq_false_iff_ne, Ne, List.length_eq_zero]
    intro h0
    rw [h0] at hinfilter
    exact absurd hinfilter (List.not_mem_nil r)
  simp only [deleteMoodEntryByDate, getMoodEntryByDate_of_wf_some st d now r hWF hr,
    dbDelete, hlen, Bool.false_eq_true, if_false]

/-- Deleting an absent date fails with the not-found error and leaves
the store unchanged. -/
theorem deleteMoodEntryByDate_absent (st : Store) (d now : String)
    (h : dbGet st d = none) :
    deleteMoodEntryByDate st d now = (.error (.notFound d), st) := by
  simp [deleteMoodEntryByDate, getMoodEntryByDate_of_wf_none st d now h]

theorem dbGet_filter_out (st : Store) (d : String) :
    dbGet ⟨st.rows.filter fun x => !(x.date == d), st.nextId⟩ d = none := by
  rw [dbGet_eq_none_iff]
  intro r hr
  have := (List.mem_filter.mp hr).2
  simpa using this

/-- Deletion preserves the store invariant. -/
theorem storeWF_after_delete (st : Store) (d : String) (hWF : storeWF st) :
    storeWF ⟨st.rows.filter fun x => !(x.date == d), st.nextId⟩ := by
  constructor
  · exact hWF.1.sublist ((List.filter_sublist _).map _)
  · intro r hr
    exact hWF.2 r (List.mem_filter.mp hr).1

theorem dbGet_append_newRow (st : Store) (inp : MoodInput) (now : String)
    (hfree : dbGet st inp.date = none) :
    dbGet ⟨st.rows ++ [newRow st inp now], st.nextId + 1⟩ inp.date =
      some (newRow st inp now) := by
  unfold dbGet at hfree ⊢
  rw [List.find?_append, hfree]
  simp [newRow]

theorem fromDbRow_newRow (st : Store) (inp : MoodInput) (now now' : String)
    (hv : entryErrors inp.date inp.emoji (normNote inp.note) = []) :
    fromDbRow (newRow st inp now) now' =
      .ok ⟨some st.nextId, inp.date, inp.emoji, normNote inp.note,
        tsOr (some now) now', tsOr (some now) now'⟩ := by
  have hv' : entryErrors inp.date inp.emoji (normNote (normNote inp.note)) = [] := by
    rw [normNote_idem]; exact hv
  simp [fromDbRow, newRow, mkMoodEntry, hv', normNote_idem, hv]

/-! ### The claims -/

/-- C1 (amended): for every candidate with an emoji from the fixed
5-symbol set and a valid calendar date that `create` accepts, a
subsequent `getByDate` on that date returns an entry whose `date` and
`emoji` are identical to the created entry's input values and whose
`note` is the input note after the constructor's normalization (the
empty-string note becomes the null note); in particular the `note` is
identical to the input whenever the input note is not the empty string.
Only `id` and the timestamps are generated. -/
theorem c1_create_getByDate_round_trip (st : Store) (inp : MoodInput)
    (now now' : String) (e : MoodEntry) (st' : Store)
    (hok : createMoodEntry st inp now = (.ok e, st')) :
    e.date = inp.date ∧ e.emoji = inp.emoji ∧
    ∃ e', getMoodEntryByDate st' inp.date now' = .ok (some e') ∧
      e'.date = inp.date ∧ e'.emoji = inp.emoji ∧
      e'.note = normNote inp.note ∧ e'.note = e.note ∧
      (inp.note ≠ some "" → e'.note = inp.note) := by
  obtain ⟨hv, hfree, he, hst⟩ := createMoodEntry_ok_inv st inp now e st' hok
  subst he hst
  refine ⟨rfl, rfl, ⟨some st.nextId, inp.date, inp.emoji, normNote inp.note,
    tsOr (some now) now', tsOr (some now) now'⟩, ?_, rfl, rfl, rfl, rfl,
    fun h => normNote_of_ne_empty inp.note h⟩
  have hget := dbGet_append_newRow st inp now hfree
  simp only [getMoodEntryByDate, hget, fromDbRow_newRow st inp now now' hv]

/-- C1 counterexample to the claim as stated: the accepted candidate
`{date: "2025-09-22", emoji: 😊, note: ""}` (valid emoji, valid calendar
date) is created, but the entry `getByDate` then returns carries
`note = null`, not the input value `""` — the empty-string note is
normalized, so the note field is not identical to the input. -/
theorem c1_counterexample_empty_note :
    createMoodEntry emptyStore ⟨"2025-09-22", "😊", some ""⟩ "2025-09-22T10:00:00.000Z" =
      (.ok ⟨some 1, "2025-09-22", "😊", none,
        "2025-09-22T10:00:00.000Z", "2025-09-22T10:00:00.000Z"⟩,
       ⟨[⟨1, "2025-09-22", "😊", none,
          "2025-09-22T10:00:00.000Z", "2025-09-22T10:00:00.000Z"⟩], 2⟩) ∧
    getMoodEntryByDate
      ⟨[⟨1, "2025-09-22", "😊", none,
         "2025-09-22T10:00:00.000Z", "2025-09-22T10:00:00.000Z"⟩], 2⟩
      "2025-09-22" "2025-09-22T10:00:00.000Z" =
      .ok (some ⟨some 1, "2025-09-22", "😊", none,
        "2025-09-22T10:00:00.000Z", "2025-09-22T10:00:00.000Z"⟩) ∧
    (none : Option String) ≠ some "" := by
  refine ⟨by decide, by decide, by decide⟩

/-- C1 witness: the amended round trip at a concrete accepted input
(non-empty note, so the note survives verbatim). -/
theorem c1_create_getByDate_round_trip_witness :
    createMoodEntry emptyStore ⟨"2025-09-22", "😊", some "walked"⟩ "T1" =
      (.ok ⟨some 1, "2025-09-22", "😊", some "walked", "T1", "T1"⟩,
       ⟨[⟨1, "2025-09-22", "😊", some "walked", "T1", "T1"⟩], 2⟩) ∧
    (⟨some 1, "2025-09-22", "😊", some "walked", "T1", "T1"⟩ : MoodEntry).date = "2025-09-22" ∧
    (⟨some 1, "2025-09-22", "😊", some "walked", "T1", "T1"⟩ : MoodEntry).emoji = "😊" ∧
    ∃ e', getMoodEntryByDate ⟨[⟨1, "2025-09-22", "😊", some "walked", "T1", "T1"⟩], 2⟩
        "2025-09-22" "T2" = .ok (some e') ∧
      e'.date = "2025-09-22" ∧ e'.emoji = "😊" ∧
      e'.note = normNote (some "walked") ∧
      e'.note = (⟨some 1, "2025-09-22", "😊", some "walked", "T1", "T1"⟩ : MoodEntry).note ∧
      ((some "walked" : Option String) ≠ some "" → e'.note = some "walked") := by
  have h : createMoodEntry emptyStore ⟨"2025-09-22", "😊", some "walked"⟩ "T1" =
      (.ok ⟨some 1, "2025-09-22", "😊", some "walked", "T1", "T1"⟩,
       ⟨[⟨1, "2025-09-22", "😊", some "walked", "T1", "T1"⟩], 2⟩) := by decide
  exact ⟨h, c1_create_getByDate_round_trip emptyStore ⟨"2025-09-22", "😊", some "walked"⟩
    "T1" "T2" _ _ h⟩

/-- C3: for every invalid candidate, `create` fails with a
`ValidationError` whose message joins all the violated rules' messages
(the date, emoji and note blocks each contribute their message) with
`'; '`, the store is untouched, and the outcome does not depend on the
store at all — no store access occurs before the failure. -/
theorem c3_validation_aggregated_no_store_access (st stOther : Store)
    (inp : MoodInput) (now nowOther : String)
    (hv : entryErrors inp.date inp.emoji (normNote inp.note) ≠ []) :
    createMoodEntry st inp now =
      (.error (.validation (String.intercalate "; "
        (dateErrs inp.date ++ emojiErrs inp.emoji ++ noteErrs (normNote inp.note)))), st) ∧
    (createMoodEntry st inp now).1 = (createMoodEntry stOther inp nowOther).1 := by
  refine ⟨createMoodEntry_invalid st inp now hv, ?_⟩
  rw [createMoodEntry_invalid st inp now hv, createMoodEntry_invalid stOther inp nowOther hv]

/-- C3 witness: a candidate violating two rules at once (malformed date
and an emoji outside the fixed set) is rejected with both messages
joined, independently of the store. -/
theorem c3_validation_aggregated_no_store_access_witness :
    entryErrors "2025-02-30" "x" (normNote (some "hi")) ≠ [] ∧
    (createMoodEntry emptyStore ⟨"2025-02-30", "x", some "hi"⟩ "T1" =
      (.error (.validation (String.intercalate "; "
        (dateErrs "2025-02-30" ++ emojiErrs "x" ++ noteErrs (normNote (some "hi"))))), emptyStore) ∧
     (createMoodEntry emptyStore ⟨"2025-02-30", "x", some "hi"⟩ "T1").1 =
      (createMoodEntry ⟨[⟨1, "2025-01-01", "😊", none, "T0", "T0"⟩], 2⟩
        ⟨"2025-02-30", "x", some "hi"⟩ "T2").1) ∧
    String.intercalate "; " (dateErrs "2025-02-30" ++ emojiErrs "x" ++ noteErrs (normNote (some "hi"))) =
      "date must be in YYYY-MM-DD format; emoji must be one of: 😢, 😐, 😊, 😄, 😍" := by
  refine ⟨by decide, c3_validation_aggregated_no_store_access emptyStore
    ⟨[⟨1, "2025-01-01", "😊", none, "T0", "T0"⟩], 2⟩
    ⟨"2025-02-30", "x", some "hi"⟩ "T1" "T2" (by decide), by decide⟩

/-- C2: per-date uniqueness. On a well-formed store every date holds at
most one row; a successful create leaves exactly one row for its date
(and a well-formed store); a valid create targeting an occupied date
fails with `DuplicateDateError` through the existence pre-check, leaving
the store unchanged; and when the INSERT itself hits the store's
uniqueness constraint (the race window the pre-check cannot close), the
resulting `SQLITE_CONSTRAINT` failure naming `mood_entries.date` is
remapped to the same `DuplicateDateError`. -/
theorem c2_at_most_one_entry_per_date (st : Store) (inp : MoodInput) (now : String)
    (hWF : storeWF st) (hnow : now ≠ "") :
    (∀ d, countDate st d ≤ 1) ∧
    (∀ e st', createMoodEntry st inp now = (.ok e, st') →
      storeWF st' ∧ countDate st' inp.date = 1 ∧ ∀ d, countDate st' d ≤ 1) ∧
    (entryErrors inp.date inp.emoji (normNote inp.note) = [] →
      1 ≤ countDate st inp.date →
      createMoodEntry st inp now = (.error (.duplicateDate inp.date), st)) ∧
    (∀ date emoji note ca ua,
      allowedEmojis.contains emoji = true → noteCheckOk note = true →
      1 ≤ countDate st date →
      dbInsert st date emoji note ca ua =
        .error ⟨"SQLITE_CONSTRAINT", "UNIQUE constraint failed: mood_entries.date"⟩ ∧
      remapSqliteError date
        ⟨"SQLITE_CONSTRAINT", "UNIQUE constraint failed: mood_entries.date"⟩ =
        .duplicateDate date) := by
  refine ⟨countDate_le_one_of_wf st hWF, ?_, ?_, ?_⟩
  · intro e st' hok
    obtain ⟨hv, hfree, -, hst⟩ := createMoodEntry_ok_inv st inp now e st' hok
    subst hst
    have hWF' := storeWF_after_create st inp now hWF hnow hv hfree
    refine ⟨hWF', ?_, countDate_le_one_of_wf _ hWF'⟩
    have h0 : countDate st inp.date = 0 := by
      rw [countDate, List.countP_eq_zero]
      intro r hr
      simpa using (dbGet_eq_none_iff st inp.date).mp hfree r hr
    rw [countDate, List.countP_append]
    rw [countDate] at h0
    rw [h0]
    simp [newRow]
  · intro hv hocc
    cases hr : dbGet st inp.date with
    | none =>
      rw [countDate_pos_iff] at hocc
      obtain ⟨r, hrm, hrd⟩ := hocc
      exact absurd hrd ((dbGet_eq_none_iff st inp.date).mp hr r hrm)
    | some r => exact createMoodEntry_dup st inp now hWF hv r hr
  · intro date emoji note ca ua hcont hnote hocc
    have hany : (st.rows.any fun r => r.date == date) = true := by
      rw [countDate_pos_iff] at hocc
      obtain ⟨r, hrm, hrd⟩ := hocc
      exact List.any_eq_true.mpr ⟨r, hrm, by simp [hrd]⟩
    constructor
    · simp only [dbInsert, hcont, hnote, hany, Bool.not_true, Bool.false_eq_true,
        if_false, if_true]
    · rw [remapSqliteError, if_pos (by decide)]

/-- C2 witness: a store holding one entry for 2025-09-21; creating that
date again fails with the duplicate error, creating a fresh date
succeeds with exactly one row, and a direct INSERT for the occupied
date hits the uniqueness constraint and is remapped. -/
theorem c2_at_most_one_entry_per_date_witness :
    storeWF ⟨[⟨1, "2025-09-21", "😄", none, "T0", "T0"⟩], 2⟩ ∧ ("T1" : String) ≠ "" ∧
    ((∀ d, countDate ⟨[⟨1, "2025-09-21", "😄", none, "T0", "T0"⟩], 2⟩ d ≤ 1) ∧
     (∀ e st', createMoodEntry ⟨[⟨1, "2025-09-21", "😄", none, "T0", "T0"⟩], 2⟩
        ⟨"2025-09-21", "😐", none⟩ "T1" = (.ok e, st') →
       storeWF st' ∧ countDate st' "2025-09-21" = 1 ∧ ∀ d, countDate st' d ≤ 1) ∧
     (entryErrors "2025-09-21" "😐" (normNote none) = [] →
       1 ≤ countDate ⟨[⟨1, "2025-09-21", "😄", none, "T0", "T0"⟩], 2⟩ "2025-09-21" →
       createMoodEntry ⟨[⟨1, "2025-09-21", "😄", none, "T0", "T0"⟩], 2⟩
        ⟨"2025-09-21", "😐", none⟩ "T1" =
        (.error (.duplicateDate "2025-09-21"), ⟨[⟨1, "2025-09-21", "😄", none, "T0", "T0"⟩], 2⟩)) ∧
     (∀ date emoji note ca ua,
       allowedEmojis.contains emoji = true → noteCheckOk note = true →
       1 ≤ countDate ⟨[⟨1, "2025-09-21", "😄", none, "T0", "T0"⟩], 2⟩ date →
       dbInsert ⟨[⟨1, "2025-09-21", "😄", none, "T0", "T0"⟩], 2⟩ date emoji note ca ua =
         .error ⟨"SQLITE_CONSTRAINT", "UNIQUE constraint failed: mood_entries.date"⟩ ∧
       remapSqliteError date
         ⟨"SQLITE_CONSTRAINT", "UNIQUE constraint failed: mood_entries.date"⟩ =
         .duplicateDate date)) ∧
    createMoodEntry ⟨[⟨1, "2025-09-21", "😄", none, "T0", "T0"⟩], 2⟩
      ⟨"2025-09-21", "😐", none⟩ "T1" =
      (.error (.duplicateDate "2025-09-21"), ⟨[⟨1, "2025-09-21", "😄", none, "T0", "T0"⟩], 2⟩) := by
  refine ⟨by decide, by decide,
    c2_at_most_one_entry_per_date ⟨[⟨1, "2025-09-21", "😄", none, "T0", "T0"⟩], 2⟩
      ⟨"2025-09-21", "😐", none⟩ "T1" (by decide) (by decide), by decide⟩

theorem contains_ne_empty (e : String) (h : allowedEmojis.contains e = true) :
    e ≠ "" := by
  intro he
  subst he
  exact absurd h (by decide)

theorem dateErrs_nil_of_valid (d : String) (hd : isValidDate d = true) :
    dateErrs d = [] := by
  have hne : d ≠ "" := by
    intro h
    subst h
    exact absurd hd (by decide)
  simp [dateErrs, hne, hd]

theorem emojiErrs_nil_of_contains (e : String) (h : allowedEmojis.contains e = true) :
    emojiErrs e = [] := by
  have hmem : e ∈ allowedEmojis := by simpa using h
  simp [emojiErrs, contains_ne_empty e h, h, hmem]

/-- C6: `deleteByDate` on a present date returns the pre-deletion
snapshot (the very entry `getByDate` reported just before) and removes
exactly that date's rows, so a subsequent `getByDate` reports absence
and a second delete of the same date fails with `NotFoundError`
carrying the date; a delete on an absent date fails with that error and
leaves the store unchanged. -/
theorem c6_deleteByDate_snapshot_and_not_found (st : Store) (d : String)
    (now1 now2 now3 : String) (hWF : storeWF st) :
    (∀ r, dbGet st d = some r →
      getMoodEntryByDate st d now1 = .ok (some (entryOfRow r)) ∧
      deleteMoodEntryByDate st d now1 =
        (.ok (entryOfRow r), ⟨st.rows.filter fun x => !(x.date == d), st.nextId⟩) ∧
      getMoodEntryByDate ⟨st.rows.filter fun x => !(x.date == d), st.nextId⟩ d now2 =
        .ok none ∧
      deleteMoodEntryByDate ⟨st.rows.filter fun x => !(x.date == d), st.nextId⟩ d now3 =
        (.error (.notFound d), ⟨st.rows.filter fun x => !(x.date == d), st.nextId⟩)) ∧
    (dbGet st d = none →
      deleteMoodEntryByDate st d now1 = (.error (.notFound d), st)) := by
  refine ⟨?_, deleteMoodEntryByDate_absent st d now1⟩
  intro r hr
  exact ⟨getMoodEntryByDate_of_wf_some st d now1 r hWF hr,
    deleteMoodEntryByDate_present st d now1 hWF r hr,
    getMoodEntryByDate_of_wf_none _ d now2 (dbGet_filter_out st d),
    deleteMoodEntryByDate_absent _ d now3 (dbGet_filter_out st d)⟩

/-- C6 witness: deleting 2025-09-21 from a one-entry store returns the
snapshot, empties the store for that date, and a second delete reports
not-found. -/
theorem c6_deleteByDate_snapshot_and_not_found_witness :
    storeWF ⟨[⟨1, "2025-09-21", "😄", some "ok", "T0", "T0"⟩], 2⟩ ∧
    dbGet ⟨[⟨1, "2025-09-21", "😄", some "ok", "T0", "T0"⟩], 2⟩ "2025-09-21" =
      some ⟨1, "2025-09-21", "😄", some "ok", "T0", "T0"⟩ ∧
    (getMoodEntryByDate ⟨[⟨1, "2025-09-21", "😄", some "ok", "T0", "T0"⟩], 2⟩
        "2025-09-21" "TA" =
      .ok (some (entryOfRow ⟨1, "2025-09-21", "😄", some "ok", "T0", "T0"⟩)) ∧
     deleteMoodEntryByDate ⟨[⟨1, "2025-09-21", "😄", some "ok", "T0", "T0"⟩], 2⟩
        "2025-09-21" "TA" =
      (.ok (entryOfRow ⟨1, "2025-09-21", "😄", some "ok", "T0", "T0"⟩),
       ⟨([⟨1, "2025-09-21", "😄", some "ok", "T0", "T0"⟩] :
          List Row).filter fun x => !(x.date == "2025-09-21"), 2⟩) ∧
     getMoodEntryByDate ⟨([⟨1, "2025-09-21", "😄", some "ok", "T0", "T0"⟩] :
          List Row).filter fun x => !(x.date == "2025-09-21"), 2⟩ "2025-09-21" "TB" =
      .ok none ∧
     deleteMoodEntryByDate ⟨([⟨1, "2025-09-21", "😄", some "ok", "T0", "T0"⟩] :
          List Row).filter fun x => !(x.date == "2025-09-21"), 2⟩ "2025-09-21" "TC" =
      (.error (.notFound "2025-09-21"),
       ⟨([⟨1, "2025-09-21", "😄", some "ok", "T0", "T0"⟩] :
          List Row).filter fun x => !(x.date == "2025-09-21"), 2⟩)) := by
  refine ⟨by decide, by decide,
    (c6_deleteByDate_snapshot_and_not_found
      ⟨[⟨1, "2025-09-21", "😄", some "ok", "T0", "T0"⟩], 2⟩ "2025-09-21"
      "TA" "TB" "TC" (by decide)).1
      ⟨1, "2025-09-21", "😄", some "ok", "T0", "T0"⟩ (by decide)⟩

/-- C9: with a valid date, an allowed emoji and a free date slot,
`create` succeeds for a note of UTF-16 length exactly 500 (persisting
the row), and for any note longer than 500 it fails with a
`ValidationError` whose message references the 500-character limit,
persisting nothing (the store is returned unchanged). -/
theorem c9_note_500_boundary (st : Store) (d e n now : String)
    (hd : isValidDate d = true) (he : allowedEmojis.contains e = true)
    (hfree : dbGet st d = none) :
    (jsLength n = 500 →
      createMoodEntry st ⟨d, e, some n⟩ now =
        (.ok { newEntry ⟨d, e, some n⟩ now with id := some st.nextId },
         ⟨st.rows ++ [newRow st ⟨d, e, some n⟩ now], st.nextId + 1⟩)) ∧
    (500 < jsLength n →
      createMoodEntry st ⟨d, e, some n⟩ now =
        (.error (.validation "note must be 500 characters or less"), st) ∧
      strContains "note must be 500 characters or less" "500" = true) := by
  have hempty : jsLength "" = 0 := by decide
  constructor
  · intro hlen
    have hne : n ≠ "" := by
      intro h
      rw [h, hempty] at hlen
      exact absurd hlen (by omega)
    have hnorm : normNote (some n) = some n :=
      normNote_of_ne_empty (some n) (by simpa using hne)
    have hv : entryErrors d e (normNote (some n)) = [] := by
      rw [hnorm]
      unfold entryErrors
      rw [dateErrs_nil_of_valid d hd, emojiErrs_nil_of_contains e he]
      simp [noteErrs, hlen]
    exact createMoodEntry_free st ⟨d, e, some n⟩ now hv hfree
  · intro hlen
    have hne : n ≠ "" := by
      intro h
      rw [h, hempty] at hlen
      exact absurd hlen (by omega)
    have hnorm : normNote (some n) = some n :=
      normNote_of_ne_empty (some n) (by simpa using hne)
    have hv : entryErrors d e (normNote (some n)) =
        ["note must be 500 characters or less"] := by
      rw [hnorm]
      unfold entryErrors
      rw [dateErrs_nil_of_valid d hd, emojiErrs_nil_of_contains e he]
      simp [noteErrs, hlen]
    have hinv := createMoodEntry_invalid st ⟨d, e, some n⟩ now (by rw [hv]; simp)
    rw [hv, intercalate_singleton] at hinv
    exact ⟨hinv, by decide⟩

set_option maxRecDepth 100000 in
/-- C9 witness: with a 500-'a' note the create succeeds; with 501 it is
rejected with the 500-character message and the store is unchanged. -/
theorem c9_note_500_boundary_witness :
    isValidDate "2025-09-22" = true ∧
    allowedEmojis.contains "😊" = true ∧
    dbGet emptyStore "2025-09-22" = none ∧
    jsLength (String.mk (List.replicate 500 'a')) = 500 ∧
    jsLength (String.mk (List.replicate 501 'a')) = 501 ∧
    createMoodEntry emptyStore ⟨"2025-09-22", "😊", some (String.mk (List.replicate 500 'a'))⟩ "T1" =
      (.ok { newEntry ⟨"2025-09-22", "😊", some (String.mk (List.replicate 500 'a'))⟩ "T1" with
          id := some emptyStore.nextId },
       ⟨emptyStore.rows ++
          [newRow emptyStore ⟨"2025-09-22", "😊", some (String.mk (List.replicate 500 'a'))⟩ "T1"],
        emptyStore.nextId + 1⟩) ∧
    (createMoodEntry emptyStore ⟨"2025-09-22", "😊", some (String.mk (List.replicate 501 'a'))⟩ "T1" =
      (.error (.validation "note must be 500 characters or less"), emptyStore) ∧
     strContains "note must be 500 characters or less" "500" = true) := by
  refine ⟨by decide, by decide, rfl, by decide, by decide, ?_, ?_⟩
  · exact (c9_note_500_boundary emptyStore "2025-09-22" "😊"
      (String.mk (List.replicate 500 'a')) "T1" (by decide) (by decide) rfl).1 (by decide)
  · exact (c9_note_500_boundary emptyStore "2025-09-22" "😊"
      (String.mk (List.replicate 501 'a')) "T1" (by decide) (by decide) rfl).2 (by decide)

/-- C8: the date validator accepts a string exactly when it matches the
strict `YYYY-MM-DD` pattern and denotes a real calendar date; in
particular `"2025-02-30"` matches the pattern but is rejected; and on
any pattern-matching string the verdict is exactly the round trip
through the `Date` construction with the year/month/day comparison. -/
theorem c8_isValidDate_pattern_and_real_date :
    (∀ s, isValidDate s = (matchesDatePattern s && isRealCalendarDate s)) ∧
    isValidDate "2025-02-30" = false ∧
    matchesDatePattern "2025-02-30" = true ∧
    (∀ s, matchesDatePattern s = true →
      isValidDate s =
        (match jsDateYMD (parseYMD s).1 (parseYMD s).2.1 (parseYMD s).2.2 with
         | none => false
         | some (y', m', d') =>
           y' == (parseYMD s).1 && m' == (parseYMD s).2.1 && d' == (parseYMD s).2.2)) := by
  have key : ∀ s, matchesDatePattern s = true →
      isValidDate s =
        (match jsDateYMD (parseYMD s).1 (parseYMD s).2.1 (parseYMD s).2.2 with
         | none => false
         | some (y', m', d') =>
           y' == (parseYMD s).1 && m' == (parseYMD s).2.1 && d' == (parseYMD s).2.2) := by
    intro s hp
    unfold isValidDate
    rw [if_pos hp]
  refine ⟨?_, by decide, by decide, key⟩
  intro s
  unfold isValidDate isRealCalendarDate jsDateYMD
  rcases hps : parseYMD s with ⟨y, m, d⟩
  by_cases hp : matchesDatePattern s = true
  · by_cases hreal : (1 ≤ m && m ≤ 12 && 1 ≤ d && d ≤ daysInMonth y m) = true
    · simp [hp, hreal]
    · simp [hp, hreal]
  · simp [hp]

theorem typeErrors_mem (data : RawInput) (m : String) (hm : m ∈ typeErrors data) :
    m = "Date is required" ∨ m = "Emoji is required" ∨ m = "date must be a string" ∨
    m = "Emoji must be a string" ∨ m = "note must be a string" := by
  unfold typeErrors at hm
  rcases List.mem_append.mp hm with hm | hm
  rotate_left
  · split at hm <;> first | (split at hm <;> simp_all) | simp_all
  rcases List.mem_append.mp hm with hm | hm
  rotate_left
  · split at hm <;> simp_all
  rcases List.mem_append.mp hm with hm | hm
  rotate_left
  · split at hm <;> simp_all
  rcases List.mem_append.mp hm with hm | hm
  · split at hm <;> simp_all
  · split at hm <;> simp_all

theorem validateInput_date_required (data : RawInput) (hd : data.date = some (.str "")) :
    validateInput data = ⟨false, typeErrors data⟩ ∧
    "Date is required" ∈ typeErrors data := by
  have hmem : "Date is required" ∈ typeErrors data := by
    unfold typeErrors
    rw [hd]
    simp [jsTruthy]
  refine ⟨?_, hmem⟩
  unfold validateInput
  cases h : typeErrors data with
  | nil => rw [h] at hmem; exact absurd hmem (List.not_mem_nil _)
  | cons a l => rfl

theorem validateInput_emoji_required (data : RawInput) (he : data.emoji = some (.str "")) :
    validateInput data = ⟨false, typeErrors data⟩ ∧
    "Emoji is required" ∈ typeErrors data := by
  have hmem : "Emoji is required" ∈ typeErrors data := by
    unfold typeErrors
    rw [he]
    simp [jsTruthy]
  refine ⟨?_, hmem⟩
  unfold validateInput
  cases h : typeErrors data with
  | nil => rw [h] at hmem; exact absurd hmem (List.not_mem_nil _)
  | cons a l => rfl

/-- C10: an empty-string date or emoji is classified as a missing field
(`Date is required` / `Emoji is required`) by both the coarse
`validateInput` check and full-entity construction; the `YYYY-MM-DD`
pattern check and the fixed-set membership check are applied only to
non-empty values. -/
theorem c10_empty_string_fields_reported_missing :
    dateErrs "" = ["Date is required"] ∧
    (∀ d, d ≠ "" →
      dateErrs d = if isValidDate d then [] else ["date must be in YYYY-MM-DD format"]) ∧
    emojiErrs "" = ["Emoji is required"] ∧
    (∀ e, e ≠ "" →
      emojiErrs e = if allowedEmojis.contains e then []
        else ["emoji must be one of: " ++ String.intercalate ", " allowedEmojis]) ∧
    (∀ emoji note,
      (validateInput ⟨some (.str ""), emoji, note⟩).isValid = false ∧
      "Date is required" ∈ (validateInput ⟨some (.str ""), emoji, note⟩).errors ∧
      "date must be in YYYY-MM-DD format" ∉ (validateInput ⟨some (.str ""), emoji, note⟩).errors) ∧
    (∀ date note,
      (validateInput ⟨date, some (.str ""), note⟩).isValid = false ∧
      "Emoji is required" ∈ (validateInput ⟨date, some (.str ""), note⟩).errors ∧
      ("emoji must be one of: " ++ String.intercalate ", " allowedEmojis) ∉
        (validateInput ⟨date, some (.str ""), note⟩).errors) := by
  refine ⟨rfl, ?_, rfl, ?_, ?_, ?_⟩
  · intro d hd
    unfold dateErrs
    rw [if_neg hd]
    cases h : isValidDate d <;> simp
  · intro e he
    unfold emojiErrs
    rw [if_neg he]
    cases h : allowedEmojis.contains e <;> simp
  · intro emoji note
    obtain ⟨heq, hmem⟩ := validateInput_date_required ⟨some (.str ""), emoji, note⟩ rfl
    rw [heq]
    refine ⟨rfl, hmem, ?_⟩
    intro hbad
    rcases typeErrors_mem _ _ hbad with h | h | h | h | h <;> revert h <;> decide
  · intro date note
    obtain ⟨heq, hmem⟩ := validateInput_emoji_required ⟨date, some (.str ""), note⟩ rfl
    rw [heq]
    refine ⟨rfl, hmem, ?_⟩
    intro hbad
    rcases typeErrors_mem _ _ hbad with h | h | h | h | h <;> revert h <;> decide

/-- C10 witness: concrete empty-string date and emoji inputs are
reported as missing, not as format/set violations. -/
theorem c10_empty_string_fields_reported_missing_witness :
    (("2025-99-99" : String) ≠ "" ∧
      dateErrs "2025-99-99" =
        if isValidDate "2025-99-99" then [] else ["date must be in YYYY-MM-DD format"]) ∧
    ((validateInput ⟨some (.str ""), some (.str "😊"), none⟩).isValid = false ∧
     "Date is required" ∈ (validateInput ⟨some (.str ""), some (.str "😊"), none⟩).errors ∧
     "date must be in YYYY-MM-DD format" ∉
       (validateInput ⟨some (.str ""), some (.str "😊"), none⟩).errors) ∧
    ((validateInput ⟨some (.str "2025-09-22"), some (.str ""), some (.str "hi")⟩).isValid = false ∧
     "Emoji is required" ∈
       (validateInput ⟨some (.str "2025-09-22"), some (.str ""), some (.str "hi")⟩).errors ∧
     ("emoji must be one of: " ++ String.intercalate ", " allowedEmojis) ∉
       (validateInput ⟨some (.str "2025-09-22"), some (.str ""), some (.str "hi")⟩).errors) := by
  refine ⟨⟨by decide, c10_empty_string_fields_reported_missing.2.1 "2025-99-99" (by decide)⟩,
    c10_empty_string_fields_reported_missing.2.2.2.2.1 (some (.str "😊")) none,
    c10_empty_string_fields_reported_missing.2.2.2.2.2 (some (.str "2025-09-22")) (some (.str "hi"))⟩

theorem pageRows_mem (st : Store) (opts : ListOptions) (off lim : Nat) (r : Row)
    (hr : r ∈ ((sortRowsDesc (st.rows.filter (rowMatches opts))).drop off).take lim) :
    r ∈ st.rows ∧ rowMatches opts r = true := by
  have h1 : r ∈ sortRowsDesc (st.rows.filter (rowMatches opts)) :=
    List.mem_of_mem_drop (List.mem_of_mem_take hr)
  rw [sortRowsDesc, List.mem_insertionSort] at h1
  exact ⟨(List.mem_filter.mp h1).1, (List.mem_filter.mp h1).2⟩

/-- C5: on a well-formed store, `list` fails exactly when its options
are invalid — `limit` outside `[1, 100]`, `page < 1`, or both `from`
and `to` given (as non-empty strings, JavaScript truthiness) with
`from > to` in the string order; for every other option value it does
not fail. -/
theorem c5_list_failure_iff (st : Store) (opts : ListOptions) (now : String)
    (hWF : storeWF st) :
    (∃ e, getMoodEntries st opts now = .error e) ↔
      (opts.limit < 1 ∨ 100 < opts.limit ∨ opts.page < 1 ∨
       (optTruthy opts.dateFrom = true ∧ optTruthy opts.dateTo = true ∧
        jsStrLt (optStr opts.dateTo) (optStr opts.dateFrom) = true)) := by
  by_cases h1 : opts.limit < 1 ∨ 100 < opts.limit
  · constructor
    · intro _
      rcases h1 with h | h
      · exact Or.inl h
      · exact Or.inr (Or.inl h)
    · intro _
      refine ⟨.err "Limit must be between 1 and 100", ?_⟩
      unfold getMoodEntries
      rw [if_pos h1]
  · by_cases h2 : opts.page < 1
    · constructor
      · intro _
        exact Or.inr (Or.inr (Or.inl h2))
      · intro _
        refine ⟨.err "Page must be 1 or greater", ?_⟩
        unfold getMoodEntries
        rw [if_neg h1, if_pos h2]
    · by_cases h3 : (optTruthy opts.dateFrom && optTruthy opts.dateTo &&
          jsStrLt (optStr opts.dateTo) (optStr opts.dateFrom)) = true
      · constructor
        · intro _
          simp only [Bool.and_eq_true] at h3
          exact Or.inr (Or.inr (Or.inr ⟨h3.1.1, h3.1.2, h3.2⟩))
        · intro _
          refine ⟨.err "From date cannot be after to date", ?_⟩
          unfold getMoodEntries
          rw [if_neg h1, if_neg h2, if_pos h3]
      · have hmapM := mapM_fromDbRow_ok now
          (((sortRowsDesc (st.rows.filter (rowMatches opts))).drop
            ((opts.page - 1) * opts.limit).toNat).take opts.limit.toNat)
          fun r hr => hWF.2 r (pageRows_mem st opts _ _ r hr).1
        have hok : getMoodEntries st opts now = .ok
            ⟨(((sortRowsDesc (st.rows.filter (rowMatches opts))).drop
                ((opts.page - 1) * opts.limit).toNat).take opts.limit.toNat).map entryOfRow,
             (st.rows.filter (rowMatches opts)).length, opts.page, opts.limit,
             ((st.rows.filter (rowMatches opts)).length + opts.limit.toNat - 1) / opts.limit.toNat⟩ := by
          unfold getMoodEntries
          rw [if_neg h1, if_neg h2, if_neg h3]
          simp only [hmapM]
        constructor
        · rintro ⟨e, he⟩
          rw [hok] at he
          cases he
        · rintro (h | h | h | ⟨ha, hb, hc⟩)
          · exact absurd (Or.inl h) h1
          · exact absurd (Or.inr h) h1
          · exact absurd h h2
          · exact absurd (by rw [ha, hb, hc]; rfl) h3

/-- C5 witness: on a concrete well-formed store, `limit = 0` fails and
the default options succeed. -/
theorem c5_list_failure_iff_witness :
    storeWF ⟨[⟨1, "2025-09-21", "😄", none, "T0", "T0"⟩], 2⟩ ∧
    ((∃ e, getMoodEntries ⟨[⟨1, "2025-09-21", "😄", none, "T0", "T0"⟩], 2⟩
        ⟨0, 1, none, none⟩ "T" = .error e) ↔
      ((0 : Int) < 1 ∨ (100 : Int) < 0 ∨ (1 : Int) < 1 ∨
       (optTruthy none = true ∧ optTruthy none = true ∧
        jsStrLt (optStr none) (optStr none) = true))) ∧
    ((∃ e, getMoodEntries ⟨[⟨1, "2025-09-21", "😄", none, "T0", "T0"⟩], 2⟩
        ⟨20, 1, none, none⟩ "T" = .error e) ↔
      ((20 : Int) < 1 ∨ (100 : Int) < 20 ∨ (1 : Int) < 1 ∨
       (optTruthy none = true ∧ optTruthy none = true ∧
        jsStrLt (optStr none) (optStr none) = true))) ∧
    getMoodEntries ⟨[⟨1, "2025-09-21", "😄", none, "T0", "T0"⟩], 2⟩
      ⟨0, 1, none, none⟩ "T" = .error (.err "Limit must be between 1 and 100") ∧
    getMoodEntries ⟨[⟨1, "2025-09-21", "😄", none, "T0", "T0"⟩], 2⟩
      ⟨20, 1, none, none⟩ "T" =
      .ok ⟨[⟨some 1, "2025-09-21", "😄", none, "T0", "T0"⟩], 1, 1, 20, 1⟩ := by
  refine ⟨by decide,
    c5_list_failure_iff ⟨[⟨1, "2025-09-21", "😄", none, "T0", "T0"⟩], 2⟩
      ⟨0, 1, none, none⟩ "T" (by decide),
    c5_list_failure_iff ⟨[⟨1, "2025-09-21", "😄", none, "T0", "T0"⟩], 2⟩
      ⟨20, 1, none, none⟩ "T" (by decide),
    by decide, by decide⟩

theorem rowMatches_eq_inDateRange (opts : ListOptions)
    (hfrom : opts.dateFrom = none ∨ ∃ s, opts.dateFrom = some s ∧ s ≠ "")
    (hto : opts.dateTo = none ∨ ∃ s, opts.dateTo = some s ∧ s ≠ "")
    (r : Row) :
    rowMatches opts r = inDateRange opts.dateFrom opts.dateTo r.date := by
  rcases hfrom with hf | ⟨a, hf, ha⟩
  · rcases hto with ht | ⟨b, ht, hb⟩
    · simp [rowMatches, inDateRange, hf, ht, optTruthy, optStr]
    · simp [rowMatches, inDateRange, hf, ht, optTruthy, optStr, hb]
  · rcases hto with ht | ⟨b, ht, hb⟩
    · simp [rowMatches, inDateRange, hf, ht, optTruthy, optStr, ha]
    · simp [rowMatches, inDateRange, hf, ht, optTruthy, optStr, ha, hb]

theorem isValidDate_ne_empty (s : String) (h : isValidDate s = true) : s ≠ "" := by
  intro hs
  subst hs
  exact absurd h (by decide)

/-- C4: on a well-formed store, for valid options (limit in `[1,100]`,
page ≥ 1, bounds absent or valid date strings, and a non-inverted
range), `list` succeeds and returns exactly the entries matching the
inclusive date-range filter (one-sided when only one bound is given),
ordered strictly descending by date, sliced at offset
`(page − 1) × limit` with at most `limit` items, together with the
total count of matching entries and `totalPages = ⌈total / limit⌉`;
a page beyond the available data yields an empty slice with the same
`total`/`page`/`limit`. -/
theorem c4_list_filter_order_pagination (st : Store) (opts : ListOptions) (now : String)
    (hWF : storeWF st)
    (hlim1 : 1 ≤ opts.limit) (hlim2 : opts.limit ≤ 100)
    (hpage : 1 ≤ opts.page)
    (hfrom : opts.dateFrom = none ∨ ∃ s, opts.dateFrom = some s ∧ isValidDate s = true)
    (hto : opts.dateTo = none ∨ ∃ s, opts.dateTo = some s ∧ isValidDate s = true)
    (hrange : (optTruthy opts.dateFrom && optTruthy opts.dateTo &&
      jsStrLt (optStr opts.dateTo) (optStr opts.dateFrom)) = false) :
    ∃ res, getMoodEntries st opts now = .ok res ∧
      res.total = (st.rows.filter fun r =>
        inDateRange opts.dateFrom opts.dateTo r.date).length ∧
      res.page = opts.page ∧ res.limit = opts.limit ∧
      res.totalPages = (res.total + opts.limit.toNat - 1) / opts.limit.toNat ∧
      res.moods = (((sortRowsDesc (st.rows.filter fun r =>
          inDateRange opts.dateFrom opts.dateTo r.date)).drop
            ((opts.page - 1) * opts.limit).toNat).take opts.limit.toNat).map entryOfRow ∧
      res.moods.length ≤ opts.limit.toNat ∧
      (∀ m ∈ res.moods, inDateRange opts.dateFrom opts.dateTo m.date = true) ∧
      List.Pairwise (fun a b => sqlLt b.date a.date = true) res.moods ∧
      (res.total ≤ ((opts.page - 1) * opts.limit).toNat → res.moods = []) := by
  have hfrom' : opts.dateFrom = none ∨ ∃ s, opts.dateFrom = some s ∧ s ≠ "" := by
    rcases hfrom with h | ⟨s, hs, hv⟩
    · exact Or.inl h
    · exact Or.inr ⟨s, hs, isValidDate_ne_empty s hv⟩
  have hto' : opts.dateTo = none ∨ ∃ s, opts.dateTo = some s ∧ s ≠ "" := by
    rcases hto with h | ⟨s, hs, hv⟩
    · exact Or.inl h
    · exact Or.inr ⟨s, hs, isValidDate_ne_empty s hv⟩
  have hfilter : st.rows.filter (rowMatches opts) =
      st.rows.filter fun r => inDateRange opts.dateFrom opts.dateTo r.date :=
    List.filter_congr fun r _ => rowMatches_eq_inDateRange opts hfrom' hto' r
  have h1 : ¬(opts.limit < 1 ∨ 100 < opts.limit) := by
    push_neg
    exact ⟨hlim1, hlim2⟩
  have h2 : ¬opts.page < 1 := not_lt.mpr hpage
  have h3 : ¬(optTruthy opts.dateFrom && optTruthy opts.dateTo &&
      jsStrLt (optStr opts.dateTo) (optStr opts.dateFrom)) = true := by
    rw [hrange]
    simp
  have hmemrows : ∀ r, r ∈ ((sortRowsDesc (st.rows.filter fun x =>
      inDateRange opts.dateFrom opts.dateTo x.date)).drop
        ((opts.page - 1) * opts.limit).toNat).take opts.limit.toNat →
      r ∈ st.rows.filter fun x => inDateRange opts.dateFrom opts.dateTo x.date := by
    intro r hr
    have h := List.mem_of_mem_drop (List.mem_of_mem_take hr)
    rwa [sortRowsDesc, List.mem_insertionSort] at h
  have hmapM : (((sortRowsDesc (st.rows.filter fun x =>
      inDateRange opts.dateFrom opts.dateTo x.date)).drop
        ((opts.page - 1) * opts.limit).toNat).take opts.limit.toNat).mapM
      (fun r => fromDbRow r now) =
      .ok ((((sortRowsDesc (st.rows.filter fun x =>
        inDateRange opts.dateFrom opts.dateTo x.date)).drop
          ((opts.page - 1) * opts.limit).toNat).take opts.limit.toNat).map entryOfRow) :=
    mapM_fromDbRow_ok now _ fun r hr =>
      hWF.2 r (List.mem_filter.mp (hmemrows r hr)).1
  have hok : getMoodEntries st opts now = .ok
      ⟨(((sortRowsDesc (st.rows.filter fun x =>
          inDateRange opts.dateFrom opts.dateTo x.date)).drop
            ((opts.page - 1) * opts.limit).toNat).take opts.limit.toNat).map entryOfRow,
       (st.rows.filter fun x => inDateRange opts.dateFrom opts.dateTo x.date).length,
       opts.page, opts.limit,
       ((st.rows.filter fun x => inDateRange opts.dateFrom opts.dateTo x.date).length +
          opts.limit.toNat - 1) / opts.limit.toNat⟩ := by
    unfold getMoodEntries
    rw [if_neg h1, if_neg h2, if_neg h3]
    simp only [hfilter, hmapM]
  refine ⟨_, hok, rfl, rfl, rfl, rfl, rfl, ?_, ?_, ?_, ?_⟩
  · rw [List.length_map]
    exact List.length_take_le ..
  · intro m hm
    obtain ⟨r, hr, hmr⟩ := List.mem_map.mp hm
    have := (List.mem_filter.mp (hmemrows r hr)).2
    rw [← hmr]
    exact this
  · have hsorted : List.Pairwise rowDescRel (sortRowsDesc (st.rows.filter fun x =>
        inDateRange opts.dateFrom opts.dateTo x.date)) :=
      List.sorted_insertionSort rowDescRel _
    have hnodup : ((sortRowsDesc (st.rows.filter fun x =>
        inDateRange opts.dateFrom opts.dateTo x.date)).map fun r => r.date).Nodup := by
      have hperm : ((sortRowsDesc (st.rows.filter fun x =>
          inDateRange opts.dateFrom opts.dateTo x.date)).map fun r => r.date).Perm
          ((st.rows.filter fun x =>
            inDateRange opts.dateFrom opts.dateTo x.date).map fun r => r.date) :=
        (List.perm_insertionSort rowDescRel _).map _
      rw [hperm.nodup_iff]
      exact hWF.1.sublist ((List.filter_sublist _).map _)
    have hne : List.Pairwise (fun a b : Row => a.date ≠ b.date)
        (sortRowsDesc (st.rows.filter fun x =>
          inDateRange opts.dateFrom opts.dateTo x.date)) :=
      List.pairwise_map.mp hnodup
    have hstrict : List.Pairwise (fun a b : Row => sqlLt b.date a.date = true)
        (sortRowsDesc (st.rows.filter fun x =>
          inDateRange opts.dateFrom opts.dateTo x.date)) :=
      (hsorted.and hne).imp fun h => sqlLt_of_le_of_ne _ _ h.1 fun he => h.2 he.symm
    have hsub : List.Sublist (((sortRowsDesc (st.rows.filter fun x =>
        inDateRange opts.dateFrom opts.dateTo x.date)).drop
          ((opts.page - 1) * opts.limit).toNat).take opts.limit.toNat)
        (sortRowsDesc (st.rows.filter fun x =>
          inDateRange opts.dateFrom opts.dateTo x.date)) :=
      (List.take_sublist ..).trans (List.drop_sublist ..)
    exact List.pairwise_map.mpr (hstrict.sublist hsub)
  · intro hbeyond
    have hlen : (sortRowsDesc (st.rows.filter fun x =>
        inDateRange opts.dateFrom opts.dateTo x.date)).length =
        (st.rows.filter fun x => inDateRange opts.dateFrom opts.dateTo x.date).length :=
      (List.perm_insertionSort rowDescRel _).length_eq
    have hdrop : (sortRowsDesc (st.rows.filter fun x =>
        inDateRange opts.dateFrom opts.dateTo x.date)).drop
          ((opts.page - 1) * opts.limit).toNat = [] :=
      List.drop_eq_nil_of_le (by rw [hlen]; exact hbeyond)
    simp [hdrop]

/-- C4 witness: the spec's three-entry scenario — entries dated
2025-09-20..22 listed with the defaults come back in the order
`[22, 21, 20]` with `total = 3`, and page 2 of size 2 holds just the
oldest entry. -/
theorem c4_list_filter_order_pagination_witness :
    storeWF ⟨[⟨1, "2025-09-20", "😢", none, "T0", "T0"⟩,
              ⟨2, "2025-09-22", "😊", none, "T0", "T0"⟩,
              ⟨3, "2025-09-21", "😄", none, "T0", "T0"⟩], 4⟩ ∧
    ((1 : Int) ≤ 20 ∧ (20 : Int) ≤ 100 ∧ (1 : Int) ≤ 1) ∧
    getMoodEntries ⟨[⟨1, "2025-09-20", "😢", none, "T0", "T0"⟩,
              ⟨2, "2025-09-22", "😊", none, "T0", "T0"⟩,
              ⟨3, "2025-09-21", "😄", none, "T0", "T0"⟩], 4⟩ ⟨20, 1, none, none⟩ "T" =
      .ok ⟨[⟨some 2, "2025-09-22", "😊", none, "T0", "T0"⟩,
            ⟨some 3, "2025-09-21", "😄", none, "T0", "T0"⟩,
            ⟨some 1, "2025-09-20", "😢", none, "T0", "T0"⟩], 3, 1, 20, 1⟩ ∧
    getMoodEntries ⟨[⟨1, "2025-09-20", "😢", none, "T0", "T0"⟩,
              ⟨2, "2025-09-22", "😊", none, "T0", "T0"⟩,
              ⟨3, "2025-09-21", "😄", none, "T0", "T0"⟩], 4⟩ ⟨2, 2, none, none⟩ "T" =
      .ok ⟨[⟨some 1, "2025-09-20", "😢", none, "T0", "T0"⟩], 3, 2, 2, 2⟩ ∧
    getMoodEntries ⟨[⟨1, "2025-09-20", "😢", none, "T0", "T0"⟩,
              ⟨2, "2025-09-22", "😊", none, "T0", "T0"⟩,
              ⟨3, "2025-09-21", "😄", none, "T0", "T0"⟩], 4⟩ ⟨20, 5, none, none⟩ "T" =
      .ok ⟨[], 3, 5, 20, 1⟩ ∧
    (∃ res, getMoodEntries ⟨[⟨1, "2025-09-20", "😢", none, "T0", "T0"⟩,
              ⟨2, "2025-09-22", "😊", none, "T0", "T0"⟩,
              ⟨3, "2025-09-21", "😄", none, "T0", "T0"⟩], 4⟩
        ⟨20, 1, some "2025-09-21", some "2025-09-22"⟩ "T" = .ok res ∧
      res.total = ((⟨[⟨1, "2025-09-20", "😢", none, "T0", "T0"⟩,
              ⟨2, "2025-09-22", "😊", none, "T0", "T0"⟩,
              ⟨3, "2025-09-21", "😄", none, "T0", "T0"⟩], 4⟩ : Store).rows.filter fun r =>
        inDateRange (some "2025-09-21") (some "2025-09-22") r.date).length ∧
      res.page = 1 ∧ res.limit = 20 ∧
      res.totalPages = (res.total + (20 : Int).toNat - 1) / (20 : Int).toNat ∧
      res.moods = (((sortRowsDesc (((⟨[⟨1, "2025-09-20", "😢", none, "T0", "T0"⟩,
              ⟨2, "2025-09-22", "😊", none, "T0", "T0"⟩,
              ⟨3, "2025-09-21", "😄", none, "T0", "T0"⟩], 4⟩ : Store)).rows.filter fun r =>
          inDateRange (some "2025-09-21") (some "2025-09-22") r.date)).drop
            (((1 : Int) - 1) * 20).toNat).take (20 : Int).toNat).map entryOfRow ∧
      res.moods.length ≤ (20 : Int).toNat ∧
      (∀ m ∈ res.moods, inDateRange (some "2025-09-21") (some "2025-09-22") m.date = true) ∧
      List.Pairwise (fun a b => sqlLt b.date a.date = true) res.moods ∧
      (res.total ≤ (((1 : Int) - 1) * 20).toNat → res.moods = [])) := by
  refine ⟨by decide, by decide, by decide, by decide, by decide, ?_⟩
  exact c4_list_filter_order_pagination
    ⟨[⟨1, "2025-09-20", "😢", none, "T0", "T0"⟩,
      ⟨2, "2025-09-22", "😊", none, "T0", "T0"⟩,
      ⟨3, "2025-09-21", "😄", none, "T0", "T0"⟩], 4⟩
    ⟨20, 1, some "2025-09-21", some "2025-09-22"⟩ "T" (by decide)
    (by decide) (by decide) (by decide)
    (Or.inr ⟨"2025-09-21", rfl, by decide⟩) (Or.inr ⟨"2025-09-22", rfl, by decide⟩)
    (by decide)

/-! ### Aggregation lemmas for the statistics query -/

theorem sum_map_add {α : Type} (l : List α) (f g : α → Nat) :
    (l.map fun a => f a + g a).sum = (l.map f).sum + (l.map g).sum := by
  induction l with
  | nil => rfl
  | cons a l ih =>
    simp only [List.map_cons, List.sum_cons, ih]
    omega

theorem sum_map_ite_eq_countD {α : Type} [DecidableEq α] (l : List α) (b : α) :
    (l.map fun k => if b = k then 1 else 0).sum = l.countP fun a => decide (a = b) := by
  induction l with
  | nil => rfl
  | cons k l ih =>
    simp only [List.map_cons, List.sum_cons, ih, List.countP_cons]
    by_cases h : b = k
    · subst h
      simp
      omega
    · rw [if_neg h, if_neg (by simp only [decide_eq_true_eq]; exact fun hc => h hc.symm)]
      omega

theorem countD_cons {α : Type} [DecidableEq α] (b : α) (K : List α) (k : α) :
    ((b :: K).countP fun a => decide (a = k)) =
      (K.countP fun a => decide (a = k)) + (if b = k then 1 else 0) := by
  rw [List.countP_cons]
  by_cases h : b = k <;> simp [h]

theorem countD_eq_ite_of_nodup {α : Type} [DecidableEq α] (l : List α) (hl : l.Nodup)
    (b : α) : (l.countP fun a => decide (a = b)) = if b ∈ l then 1 else 0 := by
  induction l with
  | nil => simp
  | cons k l ih =>
    rcases List.nodup_cons.mp hl with ⟨hk, hl2⟩
    rw [List.countP_cons]
    by_cases h : k = b
    · subst h
      have h0 : (l.countP fun a => decide (a = k)) = 0 := by
        rw [List.countP_eq_zero]
        intro a ha
        simp only [decide_eq_true_eq]
        intro he
        exact hk (he ▸ ha)
      simp [h0]
    · rw [ih hl2]
      by_cases hb : b ∈ l
      · have hm : b ∈ k :: l := List.mem_cons_of_mem k hb
        simp [hb, hm, h]
      · have hm : b ∉ k :: l := by
          simp only [List.mem_cons]
          rintro (hc | hc)
          · exact h hc.symm
          · exact hb hc
        simp [hb, hm, h]

theorem sum_countD_over_nodup {α : Type} [DecidableEq α] (u : List α) (hu : u.Nodup)
    (p : α → Bool) :
    ∀ K : List α, (∀ a ∈ K, a ∈ u) →
      ((u.filter p).map fun k => K.countP fun a => decide (a = k)).sum = K.countP p := by
  intro K
  induction K with
  | nil =>
    intro _
    simp
  | cons b K ih =>
    intro hK
    have hmap : ((u.filter p).map fun k => (b :: K).countP fun a => decide (a = k)) =
        (u.filter p).map fun k =>
          (K.countP fun a => decide (a = k)) + (if b = k then 1 else 0) :=
      List.map_congr_left fun k _ => countD_cons b K k
    rw [hmap, sum_map_add, ih fun a ha => hK a (by simp [ha]),
      sum_map_ite_eq_countD, countD_eq_ite_of_nodup _ (hu.filter p) b, List.countP_cons]
    by_cases hb : p b = true
    · rw [if_pos (List.mem_filter.mpr ⟨hK b (by simp), hb⟩), if_pos hb]
    · rw [if_neg (fun hm => hb (List.mem_filter.mp hm).2), if_neg hb]

/-- Summing the per-key counts over the deduplicated keys satisfying `p`
recovers the `countP` of the original list. -/
theorem sum_countD_dedup_filter {α : Type} [DecidableEq α] (K : List α) (p : α → Bool) :
    ((K.dedup.filter p).map fun k => K.countP fun a => decide (a = k)).sum = K.countP p :=
  sum_countD_over_nodup K.dedup K.nodup_dedup p K fun _ ha => List.mem_dedup.mpr ha

theorem distribution_foldl (gs : List StatGroup) (f : String → Nat) (e : String) :
    (gs.foldl (fun f g => fun x => if x == g.emoji then f x + g.count else f x) f) e =
      f e + ((gs.filter fun g => g.emoji == e).map fun g => g.count).sum := by
  induction gs generalizing f with
  | nil => simp
  | cons g gs ih =>
    rw [List.foldl_cons, ih]
    by_cases he : e = g.emoji
    · subst he
      simp
      omega
    · have h1 : (e == g.emoji) = false := by simp [he]
      have h2 : (g.emoji == e) = false := by
        simp only [beq_eq_false_iff_ne]
        exact fun hc => he hc.symm
      simp [h1, h2]

theorem total_foldl (gs : List StatGroup) (n : Nat) :
    gs.foldl (fun n g => n + g.count) n = n + (gs.map fun g => g.count).sum := by
  induction gs generalizing n with
  | nil => simp
  | cons g gs ih =>
    rw [List.foldl_cons, ih, List.map_cons, List.sum_cons]
    omega

theorem statRows_eq (st : Store) (cutoff : String) :
    statRows st cutoff =
      (((windowRows st cutoff).map rowKey).dedup.map
        (mkGroup (windowRows st cutoff))).insertionSort grpDescRel :=
  rfl

theorem groupCount_eq_countD (filtered : List Row) (k : String × String) :
    groupCount filtered k = (filtered.map rowKey).countP fun a => decide (a = k) := by
  unfold groupCount
  rw [← List.countP_eq_length_filter, List.countP_map]
  refine List.countP_congr fun r _ => ?_
  rcases k with ⟨k1, k2⟩
  simp [rowKey, Prod.ext_iff, Function.comp]

theorem c7_total_sum (filtered : List Row) :
    ((filtered.map rowKey).dedup.map (groupCount filtered)).sum = filtered.length := by
  rw [List.map_congr_left fun k _ => groupCount_eq_countD filtered k]
  have hsum := sum_countD_dedup_filter (filtered.map rowKey) fun _ => true
  rw [List.filter_true] at hsum
  rw [hsum, List.countP_true, List.length_map]

theorem c7_emoji_sum (filtered : List Row) (e : String) :
    (((filtered.map rowKey).dedup.filter fun k => k.1 == e).map
      (groupCount filtered)).sum = (filtered.filter fun r => r.emoji == e).length := by
  rw [List.map_congr_left fun k _ => groupCount_eq_countD filtered k]
  rw [sum_countD_dedup_filter (filtered.map rowKey) fun k => k.1 == e]
  rw [List.countP_map, ← List.countP_eq_length_filter]
  refine List.countP_congr fun r _ => ?_
  simp [rowKey, Function.comp]

/-- C7: `statistics({days})` uses the cutoff date `today − days`
(rendered `YYYY-MM-DD`) and aggregates exactly the entries with
`date ≥ cutoff`: it reports their total count, a per-emoji distribution
counting each emoji's entries in the window, a raw breakdown grouped by
emoji and calendar day (the day of `created_at`, as the query's
`DATE(created_at)` computes) whose groups carry the exact per-group
counts, are non-empty and cover every aggregated entry, and the window
size `days`. -/
theorem c7_statistics_cutoff_and_distribution (st : Store) (today : JsDate) (days : Nat) :
    (getStatistics st today days).period = days ∧
    (getStatistics st today days).totalEntries =
      (windowRows st (cutoffOf today days)).length ∧
    (∀ e, (getStatistics st today days).distribution e =
      ((windowRows st (cutoffOf today days)).filter fun r => r.emoji == e).length) ∧
    (∀ g ∈ (getStatistics st today days).dailyBreakdown,
      g.count = groupCount (windowRows st (cutoffOf today days)) (g.emoji, g.date) ∧
      1 ≤ g.count) ∧
    (∀ r ∈ windowRows st (cutoffOf today days),
      ∃ g ∈ (getStatistics st today days).dailyBreakdown,
        g.emoji = r.emoji ∧ g.date = dayOf r.created_at) := by
  have hperm : (statRows st (cutoffOf today days)).Perm
      (((windowRows st (cutoffOf today days)).map rowKey).dedup.map
        (mkGroup (windowRows st (cutoffOf today days)))) := by
    rw [statRows_eq]
    exact List.perm_insertionSort ..
  refine ⟨rfl, ?_, ?_, ?_, ?_⟩
  · rw [show (getStatistics st today days).totalEntries =
        (statRows st (cutoffOf today days)).foldl (fun n g => n + g.count) 0 from rfl]
    rw [total_foldl, (hperm.map fun g => g.count).sum_eq]
    have hmm : List.map (fun g : StatGroup => g.count)
        (((windowRows st (cutoffOf today days)).map rowKey).dedup.map
          (mkGroup (windowRows st (cutoffOf today days)))) =
        ((windowRows st (cutoffOf today days)).map rowKey).dedup.map
          (groupCount (windowRows st (cutoffOf today days))) := by
      rw [List.map_map]
      rfl
    rw [hmm, c7_total_sum]
    omega
  · intro e
    rw [show (getStatistics st today days).distribution =
        (statRows st (cutoffOf today days)).foldl
          (fun f g => fun x => if x == g.emoji then f x + g.count else f x)
          (fun _ => 0) from rfl]
    rw [distribution_foldl,
      ((hperm.filter fun g => g.emoji == e).map fun g => g.count).sum_eq]
    have hfm : (((windowRows st (cutoffOf today days)).map rowKey).dedup.map
        (mkGroup (windowRows st (cutoffOf today days)))).filter
          (fun g => g.emoji == e) =
        (((windowRows st (cutoffOf today days)).map rowKey).dedup.filter
          fun k => k.1 == e).map (mkGroup (windowRows st (cutoffOf today days))) := by
      rw [List.filter_map]
      rfl
    have hmm : List.map (fun g : StatGroup => g.count)
        ((((windowRows st (cutoffOf today days)).map rowKey).dedup.filter
          fun k => k.1 == e).map (mkGroup (windowRows st (cutoffOf today days)))) =
        (((windowRows st (cutoffOf today days)).map rowKey).dedup.filter
          fun k => k.1 == e).map (groupCount (windowRows st (cutoffOf today days))) := by
      rw [List.map_map]
      rfl
    rw [hfm, hmm, c7_emoji_sum]
    simp
  · intro g hg
    have hg' : g ∈ statRows st (cutoffOf today days) := hg
    rw [statRows_eq, List.mem_insertionSort] at hg'
    obtain ⟨k, hk, hgk⟩ := List.mem_map.mp hg'
    subst hgk
    refine ⟨rfl, ?_⟩
    rw [show (mkGroup (windowRows st (cutoffOf today days)) k).count =
      groupCount (windowRows st (cutoffOf today days)) k from rfl]
    rw [groupCount_eq_countD]
    exact List.countP_pos_iff.mpr ⟨k, List.mem_dedup.mp hk, by simp⟩
  · intro r hr
    refine ⟨mkGroup (windowRows st (cutoffOf today days)) (rowKey r), ?_, rfl, rfl⟩
    show _ ∈ statRows st (cutoffOf today days)
    rw [statRows_eq, List.mem_insertionSort]
    exact List.mem_map.mpr ⟨rowKey r,
      List.mem_dedup.mpr (List.mem_map.mpr ⟨r, hr, rfl⟩), rfl⟩

/-- C7 witness: the spec's scenario — a single entry
`{date: "2025-09-22", emoji: 😢, note: null}` with
`statistics({days: 30})` as of 2025-09-22 reports
`distribution[😢] = 1` and `totalEntries = 1` over the cutoff
2025-08-23. -/
theorem c7_statistics_cutoff_and_distribution_witness :
    cutoffOf ⟨2025, 9, 22⟩ 30 = "2025-08-23" ∧
    (getStatistics ⟨[⟨1, "2025-09-22", "😢", none, "2025-09-22T10:00:00.000Z",
        "2025-09-22T10:00:00.000Z"⟩], 2⟩ ⟨2025, 9, 22⟩ 30).period = 30 ∧
    (getStatistics ⟨[⟨1, "2025-09-22", "😢", none, "2025-09-22T10:00:00.000Z",
        "2025-09-22T10:00:00.000Z"⟩], 2⟩ ⟨2025, 9, 22⟩ 30).totalEntries = 1 ∧
    (getStatistics ⟨[⟨1, "2025-09-22", "😢", none, "2025-09-22T10:00:00.000Z",
        "2025-09-22T10:00:00.000Z"⟩], 2⟩ ⟨2025, 9, 22⟩ 30).distribution "😢" = 1 ∧
    (∀ g ∈ (getStatistics ⟨[⟨1, "2025-09-22", "😢", none, "2025-09-22T10:00:00.000Z",
        "2025-09-22T10:00:00.000Z"⟩], 2⟩ ⟨2025, 9, 22⟩ 30).dailyBreakdown,
      g.count = groupCount (windowRows ⟨[⟨1, "2025-09-22", "😢", none,
        "2025-09-22T10:00:00.000Z", "2025-09-22T10:00:00.000Z"⟩], 2⟩
          (cutoffOf ⟨2025, 9, 22⟩ 30)) (g.emoji, g.date) ∧
      1 ≤ g.count) := by
  refine ⟨by decide, rfl, by decide, by decide, ?_⟩
  exact (c7_statistics_cutoff_and_distribution
    ⟨[⟨1, "2025-09-22", "😢", none, "2025-09-22T10:00:00.000Z",
      "2025-09-22T10:00:00.000Z"⟩], 2⟩ ⟨2025, 9, 22⟩ 30).2.2.2.1

end MoodTracker
